import Mathlib

/-!
# Jensen-device summation benchmark: embedding and verification

Shallow embedding of `lambda.cpp` (integer mode) and `lambda-float-2.cpp`
(floating-point mode).  Both files contain the same five summation routines and
the `sum_macro` macro, differing only in the accumulator type; the routines are
therefore embedded once, over a `Scalar` record that carries the accumulator's
`0` and `+=`.

Conventions:
* `int` values are mathematical integers; every `int` arithmetic result is
  reduced with `wrap32`.  Signed overflow, undefined in C++, is thereby modelled
  as two's complement wraparound on a 32-bit `int`.
* the width of `long` is a parameter `longBits` of `measure`.
* the loop index `i` is an `Int`; the increment `i++` is only executed when
  `i < hi`, so it is the mathematical successor.  `machine_loop` runs the same
  loop with a wrapping 32-bit index and is proved to agree with the routines.
* every loop carries a ghost list `calls` recording, in call order, the indices
  at which the per-index callback was invoked.
* arrays are lists; `const int*` members are modelled by the array they point to.
-/

namespace Jensen

/-! ## Machine arithmetic -/

/-- Two's-complement reduction of an integer to the signed `w`-bit range. -/
def wrapN (w : Nat) (z : Int) : Int :=
  (z + 2 ^ (w - 1)) % 2 ^ w - 2 ^ (w - 1)

/-- Reduction to the range of a 32-bit `int`. -/
def wrap32 (z : Int) : Int := wrapN 32 z

/-- Accumulator arithmetic of a summation loop: the value of `x = 0` and the
effect of `x += v`. -/
structure Scalar (α : Type) where
  zero : α
  add : α → α → α

/-- Outcome of one summation loop: the returned accumulator and the ghost list
of indices at which the callback was invoked, in call order. -/
structure Run (α : Type) where
  result : α
  calls : List Int
  deriving DecidableEq

/-- Constant `static const int SRC_SIZE = 10000;` -/
def SRC_SIZE : Int := 10000

/-- Array element `p[i]`; outside the array the read is undefined in C++ and the
model returns `dflt`. -/
def readAt {α : Type} (dflt : α) (p : List α) (i : Int) : α :=
  if 0 ≤ i then p.getD i.toNat dflt else dflt

/-! ## The summation routines -/

/-- Loop of `sum_func`: `for (int i = lo; i < hi; i++) x += f(i);`. -/
def sum_func_loop {α : Type} (S : Scalar α) (hi : Int) (f : Int → α)
    (i : Int) (x : α) (calls : List Int) : Run α :=
  if i < hi then sum_func_loop S hi f (i + 1) (S.add x (f i)) (calls ++ [i])
  else ⟨x, calls⟩
termination_by (hi - i).toNat
decreasing_by omega

/-- Instrumented body of `sum_func`: `x = 0`, then the loop from `lo`. -/
def sum_func_run {α : Type} (S : Scalar α) (lo hi : Int) (f : Int → α) : Run α :=
  sum_func_loop S hi f lo S.zero []

/-- Function-pointer routine `sum_func(lo, hi, f)`. -/
def sum_func {α : Type} (S : Scalar α) (lo hi : Int) (f : Int → α) : α :=
  (sum_func_run S lo hi f).result

/-- Loop of `sum_template`, the callable `f` of type `T` being applied through
its call operator `call`. -/
def sum_template_loop {α T : Type} (S : Scalar α) (call : T → Int → α) (hi : Int) (f : T)
    (i : Int) (x : α) (calls : List Int) : Run α :=
  if i < hi then sum_template_loop S call hi f (i + 1) (S.add x (call f i)) (calls ++ [i])
  else ⟨x, calls⟩
termination_by (hi - i).toNat
decreasing_by omega

/-- Instrumented body of `sum_template`. -/
def sum_template_run {α T : Type} (S : Scalar α) (call : T → Int → α) (lo hi : Int)
    (f : T) : Run α :=
  sum_template_loop S call hi f lo S.zero []

/-- Generic-callable routine `sum_template<T>(lo, hi, f)`. -/
def sum_template {α T : Type} (S : Scalar α) (call : T → Int → α) (lo hi : Int) (f : T) : α :=
  (sum_template_run S call lo hi f).result

/-- The type-erased wrapper `std::function<scalar (int)>`: it stores a target
and forwards each call to it. -/
structure StdFunction (α : Type) where
  target : Int → α

/-- Call `operator()` of `std::function`. -/
def StdFunction.invoke {α : Type} (g : StdFunction α) (i : Int) : α := g.target i

/-- Loop of `sum_std_function`. -/
def sum_std_function_loop {α : Type} (S : Scalar α) (hi : Int) (f : StdFunction α)
    (i : Int) (x : α) (calls : List Int) : Run α :=
  if i < hi then sum_std_function_loop S hi f (i + 1) (S.add x (f.invoke i)) (calls ++ [i])
  else ⟨x, calls⟩
termination_by (hi - i).toNat
decreasing_by omega

/-- Instrumented body of `sum_std_function`. -/
def sum_std_function_run {α : Type} (S : Scalar α) (lo hi : Int) (f : StdFunction α) : Run α :=
  sum_std_function_loop S hi f lo S.zero []

/-- Type-erased routine `sum_std_function(lo, hi, f)`. -/
def sum_std_function {α : Type} (S : Scalar α) (lo hi : Int) (f : StdFunction α) : α :=
  (sum_std_function_run S lo hi f).result

/-- Abstract class `Func` with its single pure virtual method `f`. -/
structure Func (α : Type) where
  f : Int → α

/-- Loop of `sum_interface`: `x += f->f(i)`. -/
def sum_interface_loop {α : Type} (S : Scalar α) (hi : Int) (f : Func α)
    (i : Int) (x : α) (calls : List Int) : Run α :=
  if i < hi then sum_interface_loop S hi f (i + 1) (S.add x (f.f i)) (calls ++ [i])
  else ⟨x, calls⟩
termination_by (hi - i).toNat
decreasing_by omega

/-- Instrumented body of `sum_interface`. -/
def sum_interface_run {α : Type} (S : Scalar α) (lo hi : Int) (f : Func α) : Run α :=
  sum_interface_loop S hi f lo S.zero []

/-- Virtual-interface routine `sum_interface(lo, hi, f)`. -/
def sum_interface {α : Type} (S : Scalar α) (lo hi : Int) (f : Func α) : α :=
  (sum_interface_run S lo hi f).result

/-- Abstract class `Adder` with its protected pure virtual method `f`. -/
structure Adder (α : Type) where
  f : Int → α

/-- Loop of `Adder::sum`: `x += f(i)` on `this`. -/
def Adder.sum_loop {α : Type} (S : Scalar α) (self : Adder α) (hi : Int)
    (i : Int) (x : α) (calls : List Int) : Run α :=
  if i < hi then Adder.sum_loop S self hi (i + 1) (S.add x (self.f i)) (calls ++ [i])
  else ⟨x, calls⟩
termination_by (hi - i).toNat
decreasing_by omega

/-- Instrumented body of `Adder::sum`. -/
def Adder.sum_run {α : Type} (S : Scalar α) (self : Adder α) (lo hi : Int) : Run α :=
  Adder.sum_loop S self hi lo S.zero []

/-- Template-method routine `Adder::sum(lo, hi)`. -/
def Adder.sum {α : Type} (S : Scalar α) (self : Adder α) (lo hi : Int) : α :=
  (Adder.sum_run S self lo hi).result

/-- Caller variables written by an expansion of `sum_macro`: the index variable
`i` and the result variable `res`, together with the ghost call list. -/
structure MacroRun (α : Type) where
  i : Int
  res : α
  calls : List Int
  deriving DecidableEq

/-- Loop of the `sum_macro` expansion: the expression `f` is evaluated at the
current value of the caller's variable `i`. -/
def sum_macro_loop {α : Type} (S : Scalar α) (hi : Int) (f : Int → α)
    (i : Int) (x : α) (calls : List Int) : MacroRun α :=
  if i < hi then sum_macro_loop S hi f (i + 1) (S.add x (f i)) (calls ++ [i])
  else ⟨i, x, calls⟩
termination_by (hi - i).toNat
decreasing_by omega

/-- Expansion of `sum_macro(lo, hi, i, f, res)`: `x = 0`, `i = lo`, the loop,
then `res = x`. -/
def sum_macro_run {α : Type} (S : Scalar α) (lo hi : Int) (f : Int → α) : MacroRun α :=
  sum_macro_loop S hi f lo S.zero []

/-- Value assigned to `res` by `sum_macro(lo, hi, i, f, res)`. -/
def sum_macro_res {α : Type} (S : Scalar α) (lo hi : Int) (f : Int → α) : α :=
  (sum_macro_run S lo hi f).res

/-- The eight test classes, declared under the same names in both programs. -/
inductive Variant where
  | Test_Macro
  | Test_Lambda
  | Test_Lambda_Template
  | Test_Lambda_Template_Capture
  | Test_Lambda_Std
  | Test_Lambda_Std_Capture
  | Test_Interface
  | Test_Abstract_Class
  deriving DecidableEq

/-- All eight classes, in declaration order. -/
def Variant.all : List Variant :=
  [.Test_Macro, .Test_Lambda, .Test_Lambda_Template, .Test_Lambda_Template_Capture,
   .Test_Lambda_Std, .Test_Lambda_Std_Capture, .Test_Interface, .Test_Abstract_Class]

/-! ## Reference definitions (what the specification says a sum is) -/

/-- The indices `lo, lo+1, ..., hi-1` in ascending order (empty when `hi ≤ lo`). -/
def indexRange (lo hi : Int) : List Int :=
  (List.range (hi - lo).toNat).map (fun (k : Nat) => lo + (k : Int))

/-- Left-to-right fold of the accumulator addition over `f(lo), ..., f(hi-1)`,
starting from zero. -/
def foldSum {α : Type} (S : Scalar α) (lo hi : Int) (f : Int → α) : α :=
  (indexRange lo hi).foldl (fun acc i => S.add acc (f i)) S.zero

/-! ## Integer mode: `lambda.cpp` -/

namespace IntMode

/-- Constant `static const int ITERATIONS = 1000000;` -/
def ITERATIONS : Int := 1000000

/-- Accumulator `int x = 0; x += v;`. -/
def int32 : Scalar Int := ⟨0, fun x v => wrap32 (x + v)⟩

/-- The `int` expression `i*p[i]`. -/
def mulAt (p : List Int) (i : Int) : Int := wrap32 (i * readAt 0 p i)

/-- Closure type of the capture-less lambda `[](int i) {return i*src[i]; }`; its
body refers to the global `src`. -/
structure SrcLambda where
  src : List Int

/-- Call operator of the capture-less lambda. -/
def SrcLambda.call (c : SrcLambda) (i : Int) : Int := mulAt c.src i

/-- Closure type of `[this](int i) {return i*x[i]; }`; `this->x` is the array
the object was constructed with. -/
structure ThisLambda where
  x : List Int

/-- Call operator of the `this`-capturing lambda. -/
def ThisLambda.call (c : ThisLambda) (i : Int) : Int := mulAt c.x i

/-- Method `Test_Macro::test`: `sum_macro(0, SRC_SIZE, i, i*src[i], res); return res;`. -/
def Test_Macro.test (src : List Int) : Int :=
  sum_macro_res int32 0 SRC_SIZE (fun i => mulAt src i)

/-- Method `Test_Lambda::test`: the lambda decays to a function pointer. -/
def Test_Lambda.test (src : List Int) : Int :=
  sum_func int32 0 SRC_SIZE (SrcLambda.call ⟨src⟩)

/-- Method `Test_Lambda_Template::test`. -/
def Test_Lambda_Template.test (src : List Int) : Int :=
  sum_template int32 SrcLambda.call 0 SRC_SIZE ⟨src⟩

/-- Method `Test_Lambda_Template_Capture::test`; the source calls `sum_std_function`
here, with the lambda capturing `this`. -/
def Test_Lambda_Template_Capture.test (x : List Int) : Int :=
  sum_std_function int32 0 SRC_SIZE ⟨ThisLambda.call ⟨x⟩⟩

/-- Method `Test_Lambda_Std::test`. -/
def Test_Lambda_Std.test (src : List Int) : Int :=
  sum_std_function int32 0 SRC_SIZE ⟨SrcLambda.call ⟨src⟩⟩

/-- Method `Test_Lambda_Std_Capture::test`. -/
def Test_Lambda_Std_Capture.test (x : List Int) : Int :=
  sum_std_function int32 0 SRC_SIZE ⟨ThisLambda.call ⟨x⟩⟩

/-- Method `Test_Interface::f`: `return i*x[i];`. -/
def Test_Interface.f (x : List Int) (i : Int) : Int := mulAt x i

/-- Method `Test_Interface::test`: `return sum_interface(0, SRC_SIZE, this);`. -/
def Test_Interface.test (x : List Int) : Int :=
  sum_interface int32 0 SRC_SIZE ⟨Test_Interface.f x⟩

/-- Method `Test_Abstract_Class::f`: `return i*x[i];`. -/
def Test_Abstract_Class.f (x : List Int) (i : Int) : Int := mulAt x i

/-- Method `Test_Abstract_Class::test`: `return sum(0, SRC_SIZE);`. -/
def Test_Abstract_Class.test (x : List Int) : Int :=
  Adder.sum int32 ⟨Test_Abstract_Class.f x⟩ 0 SRC_SIZE

/-- The abstract class `Test` with its eight concrete subclasses.  A constructor
carries an array exactly when the class has the member `const int* x`. -/
inductive Test where
  | Macro
  | Lambda
  | Lambda_Template
  | Lambda_Template_Capture (x : List Int)
  | Lambda_Std
  | Lambda_Std_Capture (x : List Int)
  | Interface (x : List Int)
  | Abstract_Class (x : List Int)
  deriving DecidableEq

/-- Virtual call `test.test()`, with the global array `src` made explicit. -/
def Test.test : Test → List Int → Int
  | .Macro, src => Test_Macro.test src
  | .Lambda, src => Test_Lambda.test src
  | .Lambda_Template, src => Test_Lambda_Template.test src
  | .Lambda_Template_Capture x, _ => Test_Lambda_Template_Capture.test x
  | .Lambda_Std, src => Test_Lambda_Std.test src
  | .Lambda_Std_Capture x, _ => Test_Lambda_Std_Capture.test x
  | .Interface x, _ => Test_Interface.test x
  | .Abstract_Class x, _ => Test_Abstract_Class.test x

/-- The member `x` of a test object, when its class declares one. -/
def Test.captured : Test → Option (List Int)
  | .Lambda_Template_Capture x => some x
  | .Lambda_Std_Capture x => some x
  | .Interface x => some x
  | .Abstract_Class x => some x
  | _ => none

/-- Construction of a test object as `main` does it: the classes with a
constructor parameter receive the supplied array, the others take none. -/
def make : Variant → List Int → Test
  | .Test_Macro, _ => .Macro
  | .Test_Lambda, _ => .Lambda
  | .Test_Lambda_Template, _ => .Lambda_Template
  | .Test_Lambda_Template_Capture, x => .Lambda_Template_Capture x
  | .Test_Lambda_Std, _ => .Lambda_Std
  | .Test_Lambda_Std_Capture, x => .Lambda_Std_Capture x
  | .Test_Interface, x => .Interface x
  | .Test_Abstract_Class, x => .Abstract_Class x

/-- Whether objects of the class hold a reference to a supplied array. -/
def holdsRef (v : Variant) : Bool := ((make v []).captured).isSome

/-- Program state visible to a call of `test()`: the global array `src` and the
object the method is called on (with the array its member `x` points to). -/
structure World where
  src : List Int
  obj : Test
  deriving DecidableEq

/-- One call `obj.test()`: the returned value and the state after the call.  The
method is `const` and contains no assignment to `src`, `x` or `*x`. -/
def World.call (w : World) : Int × World := (w.obj.test w.src, w)

/-- Loop of `measure`: `for (int i = 0; i < ITERATIONS; i++) sum += (long) test.test ();`
with `long` a signed integer of `longBits` bits. -/
def measure_loop (longBits : Nat) (i : Int) (sum : Int) (w : World) : Int × World :=
  if i < ITERATIONS then
    measure_loop longBits (i + 1) (wrapN longBits (sum + wrapN longBits w.call.1)) w.call.2
  else (sum, w)
termination_by (ITERATIONS - i).toNat
decreasing_by omega

/-- Function `measure(test)`: the printed checksum `sum` and the state afterwards; the
timer readings are not modelled. -/
def measure (longBits : Nat) (w : World) : Int × World :=
  measure_loop longBits 0 0 w

/-- Initialisation loop of `main`: `for (int i = 0; i < SRC_SIZE; i++) src[i] = i;`. -/
def main_init_loop (i : Int) (src : List Int) : List Int :=
  if i < SRC_SIZE then main_init_loop (i + 1) (src.set i.toNat i) else src
termination_by (SRC_SIZE - i).toNat
decreasing_by omega

/-- Array `static int src[SRC_SIZE];` before `main` runs: zero-initialised. -/
def src_static : List Int := List.replicate SRC_SIZE.toNat 0

/-- The array `src` after the initialisation loop of `main`. -/
def main_init : List Int := main_init_loop 0 src_static

/-- The classes measured by `main`, in program order. -/
def main_order : List Variant :=
  [.Test_Macro, .Test_Macro, .Test_Lambda, .Test_Lambda_Template,
   .Test_Lambda_Template_Capture, .Test_Lambda_Std, .Test_Lambda_Std_Capture,
   .Test_Interface, .Test_Abstract_Class]

/-- The sequence of `measure` calls of `main`, started with global array `src`:
each object is built from the current `src`, measured, and the array is passed
on to the next call.  Returns the printed checksums and the final array. -/
def main_measures (longBits : Nat) (src : List Int) : List Variant → List Int × List Int
  | [] => ([], src)
  | v :: vs =>
    let r := measure longBits ⟨src, make v src⟩
    let rest := main_measures longBits r.2.src vs
    (r.1 :: rest.1, rest.2)

/-- Function `main`: initialise `src`, run the measurements, `return 0`.  The result is
the list of printed checksums and the exit code. -/
def main (longBits : Nat) : List Int × Int :=
  ((main_measures longBits main_init main_order).1, 0)

/-- The canonical input `0, 1, ..., 9999`. -/
def canonical : List Int := (List.range SRC_SIZE.toNat).map (fun (k : Nat) => (k : Int))

end IntMode

/-! ## Floating-point mode: `lambda-float-2.cpp` -/

namespace FloatMode

/-- Constant `static const int ITERATIONS = 100000;` -/
def ITERATIONS : Int := 100000

/-- The single-precision operations the program uses.  Floating-point arithmetic
itself is not modelled: the operations are parameters of the embedding. -/
structure FloatOps (F : Type) where
  zero : F
  add : F → F → F
  mul : F → F → F
  sqrtf : F → F
  ofInt : Int → F

/-- Accumulator `float x = 0; x += v;`. -/
def scalar {F : Type} (ops : FloatOps F) : Scalar F := ⟨ops.zero, ops.add⟩

/-- Expansion of `SLOW_FUNC(i, p)`, defined as `sqrtf((float)i * p[i])`. -/
def SLOW_FUNC {F : Type} (ops : FloatOps F) (i : Int) (p : List F) : F :=
  ops.sqrtf (ops.mul (ops.ofInt i) (readAt ops.zero p i))

/-- Closure type of `[](int i) {return SLOW_FUNC(i, src); }`. -/
structure SrcLambda (F : Type) where
  src : List F

/-- Call operator of the capture-less lambda. -/
def SrcLambda.call {F : Type} (ops : FloatOps F) (c : SrcLambda F) (i : Int) : F :=
  SLOW_FUNC ops i c.src

/-- Closure type of `[this](int i) {return SLOW_FUNC(i, x); }`. -/
structure ThisLambda (F : Type) where
  x : List F

/-- Call operator of the `this`-capturing lambda. -/
def ThisLambda.call {F : Type} (ops : FloatOps F) (c : ThisLambda F) (i : Int) : F :=
  SLOW_FUNC ops i c.x

/-- Method `Test_Macro::test`. -/
def Test_Macro.test {F : Type} (ops : FloatOps F) (src : List F) : F :=
  sum_macro_res (scalar ops) 0 SRC_SIZE (fun i => SLOW_FUNC ops i src)

/-- Method `Test_Lambda::test`. -/
def Test_Lambda.test {F : Type} (ops : FloatOps F) (src : List F) : F :=
  sum_func (scalar ops) 0 SRC_SIZE (SrcLambda.call ops ⟨src⟩)

/-- Method `Test_Lambda_Template::test`. -/
def Test_Lambda_Template.test {F : Type} (ops : FloatOps F) (src : List F) : F :=
  sum_template (scalar ops) (SrcLambda.call ops) 0 SRC_SIZE ⟨src⟩

/-- Method `Test_Lambda_Template_Capture::test`; the source calls `sum_std_function`. -/
def Test_Lambda_Template_Capture.test {F : Type} (ops : FloatOps F) (x : List F) : F :=
  sum_std_function (scalar ops) 0 SRC_SIZE ⟨ThisLambda.call ops ⟨x⟩⟩

/-- Method `Test_Lambda_Std::test`. -/
def Test_Lambda_Std.test {F : Type} (ops : FloatOps F) (src : List F) : F :=
  sum_std_function (scalar ops) 0 SRC_SIZE ⟨SrcLambda.call ops ⟨src⟩⟩

/-- Method `Test_Lambda_Std_Capture::test`. -/
def Test_Lambda_Std_Capture.test {F : Type} (ops : FloatOps F) (x : List F) : F :=
  sum_std_function (scalar ops) 0 SRC_SIZE ⟨ThisLambda.call ops ⟨x⟩⟩

/-- Method `Test_Interface::f`. -/
def Test_Interface.f {F : Type} (ops : FloatOps F) (x : List F) (i : Int) : F :=
  SLOW_FUNC ops i x

/-- Method `Test_Interface::test`. -/
def Test_Interface.test {F : Type} (ops : FloatOps F) (x : List F) : F :=
  sum_interface (scalar ops) 0 SRC_SIZE ⟨Test_Interface.f ops x⟩

/-- Method `Test_Abstract_Class::f`. -/
def Test_Abstract_Class.f {F : Type} (ops : FloatOps F) (x : List F) (i : Int) : F :=
  SLOW_FUNC ops i x

/-- Method `Test_Abstract_Class::test`. -/
def Test_Abstract_Class.test {F : Type} (ops : FloatOps F) (x : List F) : F :=
  Adder.sum (scalar ops) ⟨Test_Abstract_Class.f ops x⟩ 0 SRC_SIZE

/-- The abstract class `Test` of the floating-point program with its eight
concrete subclasses. -/
inductive Test (F : Type) where
  | Macro
  | Lambda
  | Lambda_Template
  | Lambda_Template_Capture (x : List F)
  | Lambda_Std
  | Lambda_Std_Capture (x : List F)
  | Interface (x : List F)
  | Abstract_Class (x : List F)

/-- Virtual call `test.test()`, with the global array `src` made explicit. -/
def Test.test {F : Type} (ops : FloatOps F) : Test F → List F → F
  | .Macro, src => Test_Macro.test ops src
  | .Lambda, src => Test_Lambda.test ops src
  | .Lambda_Template, src => Test_Lambda_Template.test ops src
  | .Lambda_Template_Capture x, _ => Test_Lambda_Template_Capture.test ops x
  | .Lambda_Std, src => Test_Lambda_Std.test ops src
  | .Lambda_Std_Capture x, _ => Test_Lambda_Std_Capture.test ops x
  | .Interface x, _ => Test_Interface.test ops x
  | .Abstract_Class x, _ => Test_Abstract_Class.test ops x

/-- Construction of a test object as `main` does it. -/
def make {F : Type} : Variant → List F → Test F
  | .Test_Macro, _ => .Macro
  | .Test_Lambda, _ => .Lambda
  | .Test_Lambda_Template, _ => .Lambda_Template
  | .Test_Lambda_Template_Capture, x => .Lambda_Template_Capture x
  | .Test_Lambda_Std, _ => .Lambda_Std
  | .Test_Lambda_Std_Capture, x => .Lambda_Std_Capture x
  | .Test_Interface, x => .Interface x
  | .Test_Abstract_Class, x => .Abstract_Class x

/-- Program state visible to a call of `test()`. -/
structure World (F : Type) where
  src : List F
  obj : Test F

/-- One call `obj.test()`: the returned value and the state after the call. -/
def World.call {F : Type} (ops : FloatOps F) (w : World F) : F × World F :=
  (w.obj.test ops w.src, w)

/-- Initialisation loop of `main`: `src[i] = (float) i;`. -/
def main_init_loop {F : Type} (ops : FloatOps F) (i : Int) (src : List F) : List F :=
  if i < SRC_SIZE then main_init_loop ops (i + 1) (src.set i.toNat (ops.ofInt i)) else src
termination_by (SRC_SIZE - i).toNat
decreasing_by omega

/-- Array `static float src[SRC_SIZE];` before `main` runs. -/
def src_static {F : Type} (ops : FloatOps F) : List F := List.replicate SRC_SIZE.toNat ops.zero

/-- The array `src` after the initialisation loop of `main`. -/
def main_init {F : Type} (ops : FloatOps F) : List F := main_init_loop ops 0 (src_static ops)

/-- Loop of `measure`: `sum += test.test();` on a `float` accumulator. -/
def measure_loop {F : Type} (ops : FloatOps F) (i : Int) (sum : F) (w : World F) :
    F × World F :=
  if i < ITERATIONS then
    measure_loop ops (i + 1) (ops.add sum (w.call ops).1) (w.call ops).2
  else (sum, w)
termination_by (ITERATIONS - i).toNat
decreasing_by omega

/-- Function `measure(test)`: the printed checksum and the state afterwards. -/
def measure {F : Type} (ops : FloatOps F) (w : World F) : F × World F :=
  measure_loop ops 0 ops.zero w

/-- The sequence of `measure` calls of `main`, started with global array `src`. -/
def main_measures {F : Type} (ops : FloatOps F) (src : List F) : List Variant → List F × List F
  | [] => ([], src)
  | v :: vs =>
    let r := measure ops ⟨src, make v src⟩
    let rest := main_measures ops r.2.src vs
    (r.1 :: rest.1, rest.2)

/-- The classes measured by `main`, in program order. -/
def main_order : List Variant :=
  [.Test_Macro, .Test_Macro, .Test_Lambda, .Test_Lambda_Template,
   .Test_Lambda_Template_Capture, .Test_Lambda_Std, .Test_Lambda_Std_Capture,
   .Test_Interface, .Test_Abstract_Class]

/-- Function `main`: initialise `src`, run the measurements, `return 0`. -/
def main {F : Type} (ops : FloatOps F) : List F × Int :=
  ((main_measures ops (main_init ops) main_order).1, 0)

/-- The canonical input `(float) 0, (float) 1, ..., (float) 9999`. -/
def canonical {F : Type} (ops : FloatOps F) : List F :=
  (List.range SRC_SIZE.toNat).map (fun (k : Nat) => ops.ofInt (k : Int))

end FloatMode

/-! ## Bounds-checked array reads -/

/-- The ghost call list of a run. -/
def Run.callList {α : Type} (r : Run α) : List Int := r.calls

/-- The ghost call list of a run of the `sum_macro` expansion. -/
def MacroRun.callList {α : Type} (r : MacroRun α) : List Int := r.calls

/-- Array element `p[i]` with the bounds made explicit: `none` when `i` lies
outside `[0, length)`. -/
def readAtChecked {α : Type} (p : List α) (i : Int) : Option α :=
  if 0 ≤ i then p[i.toNat]? else none

namespace IntMode

/-- Accumulator `int x = 0; x += v;` over bounds-checked values: an
out-of-bounds read makes the term, and from then on the accumulator, `none`. -/
def int32Checked : Scalar (Option Int) :=
  ⟨some 0, fun x v =>
    match x, v with
    | some a, some b => some (wrap32 (a + b))
    | _, _ => none⟩

/-- The `int` expression `i*p[i]` with the read of `p[i]` bounds-checked. -/
def mulAtChecked (p : List Int) (i : Int) : Option Int :=
  (readAtChecked p i).map (fun v => wrap32 (i * v))

/-- The array a test object reads in `test()`: the one its member `x` points
to when the class has the member, the global `src` otherwise. -/
def Test.array (t : Test) (src : List Int) : List Int :=
  match t.captured with
  | some x => x
  | none => src

/-- Virtual call `test.test()` with every array read bounds-checked: each class
calls the same routine as in `Test.test`, on the checked per-index expression. -/
def Test.testChecked : Test → List Int → Option Int
  | .Macro, src => sum_macro_res int32Checked 0 SRC_SIZE (fun i => mulAtChecked src i)
  | .Lambda, src => sum_func int32Checked 0 SRC_SIZE (fun i => mulAtChecked src i)
  | .Lambda_Template, src =>
    sum_template int32Checked (fun (c : SrcLambda) i => mulAtChecked c.src i) 0 SRC_SIZE ⟨src⟩
  | .Lambda_Template_Capture x, _ =>
    sum_std_function int32Checked 0 SRC_SIZE ⟨fun i => mulAtChecked x i⟩
  | .Lambda_Std, src => sum_std_function int32Checked 0 SRC_SIZE ⟨fun i => mulAtChecked src i⟩
  | .Lambda_Std_Capture x, _ =>
    sum_std_function int32Checked 0 SRC_SIZE ⟨fun i => mulAtChecked x i⟩
  | .Interface x, _ => sum_interface int32Checked 0 SRC_SIZE ⟨fun i => mulAtChecked x i⟩
  | .Abstract_Class x, _ => Adder.sum int32Checked ⟨fun i => mulAtChecked x i⟩ 0 SRC_SIZE

/-- The indices of the array reads made by one run of `test()`, in order: the
per-index expression `i*p[i]` reads `p[i]` once at each invocation, so these
are the indices in the call list of the routine the class runs. -/
def Test.accesses : Test → List Int → List Int
  | .Macro, src => MacroRun.callList (sum_macro_run int32 0 SRC_SIZE (fun i => mulAt src i))
  | .Lambda, src => Run.callList (sum_func_run int32 0 SRC_SIZE (SrcLambda.call ⟨src⟩))
  | .Lambda_Template, src =>
    Run.callList (sum_template_run int32 SrcLambda.call 0 SRC_SIZE ⟨src⟩)
  | .Lambda_Template_Capture x, _ =>
    Run.callList (sum_std_function_run int32 0 SRC_SIZE ⟨ThisLambda.call ⟨x⟩⟩)
  | .Lambda_Std, src =>
    Run.callList (sum_std_function_run int32 0 SRC_SIZE ⟨SrcLambda.call ⟨src⟩⟩)
  | .Lambda_Std_Capture x, _ =>
    Run.callList (sum_std_function_run int32 0 SRC_SIZE ⟨ThisLambda.call ⟨x⟩⟩)
  | .Interface x, _ => Run.callList (sum_interface_run int32 0 SRC_SIZE ⟨Test_Interface.f x⟩)
  | .Abstract_Class x, _ =>
    Run.callList (Adder.sum_run int32 ⟨Test_Abstract_Class.f x⟩ 0 SRC_SIZE)

end IntMode

/-! ## Machine-level execution of the summation loop -/

/-- Largest value of a 32-bit `int`. -/
def INT_MAX : Int := 2147483647

/-- Smallest value of a 32-bit `int`. -/
def INT_MIN : Int := -2147483648

/-- Record of a machine-level run of the loop: the returned accumulator, the
indices at which the callback was invoked, and the successive values taken by
the index variable `i` (its initial value, then the value after each `i++`). -/
structure MachineRun (α : Type) where
  result : α
  calls : List Int
  indices : List Int
  deriving DecidableEq

/-- Machine-level execution of `for (int i = lo; i < hi; i++) x += f(i);`, the
loop shared by the six routines, with the index a 32-bit `int`: the increment
`i++` is reduced with `wrap32`.  The fuel bounds the number of evaluations of the
guard `i < hi`; `none` means the fuel ran out before the loop exited. -/
def machine_loop {α : Type} (S : Scalar α) (hi : Int) (g : Int → α) :
    Nat → Int → α → List Int → List Int → Option (MachineRun α)
  | 0, _, _, _, _ => none
  | fuel + 1, i, x, calls, indices =>
    if i < hi then
      machine_loop S hi g fuel (wrap32 (i + 1)) (S.add x (g i)) (calls ++ [i])
        (indices ++ [wrap32 (i + 1)])
    else some ⟨x, calls, indices⟩

/-- Machine-level run of a routine body: `x = 0`, `i = lo`, then the loop. -/
def machine_run {α : Type} (S : Scalar α) (lo hi : Int) (g : Int → α) (fuel : Nat) :
    Option (MachineRun α) :=
  machine_loop S hi g fuel lo S.zero [] [lo]

/-! ## Lemmas on the index range and the loops -/

theorem indexRange_nil {lo hi : Int} (h : hi ≤ lo) : indexRange lo hi = [] := by
  have h0 : (hi - lo).toNat = 0 := by omega
  simp [indexRange, h0]

theorem indexRange_cons {lo hi : Int} (h : lo < hi) :
    indexRange lo hi = lo :: indexRange (lo + 1) hi := by
  have h1 : (hi - lo).toNat = (hi - (lo + 1)).toNat + 1 := by omega
  unfold indexRange
  rw [h1, List.range_succ_eq_map]
  simp only [List.map_cons, List.map_map, Nat.cast_zero, add_zero]
  congr 1
  apply List.map_congr_left
  intro k _
  simp only [Function.comp_apply, Nat.cast_succ]
  ring

theorem indexRange_length (lo hi : Int) : (indexRange lo hi).length = (hi - lo).toNat := by
  simp [indexRange]

theorem mem_indexRange {lo hi j : Int} : j ∈ indexRange lo hi ↔ lo ≤ j ∧ j < hi := by
  simp only [indexRange, List.mem_map, List.mem_range]
  constructor
  · rintro ⟨k, hk, rfl⟩
    omega
  · rintro ⟨h1, h2⟩
    exact ⟨(j - lo).toNat, by omega, by omega⟩

/-- Any loop function obeying the unfolding equation of the summation loops
computes the fold over the remaining indices and appends them to the call list. -/
theorem loop_spec {α : Type} (S : Scalar α) (hi : Int) (g : Int → α)
    (L : Int → α → List Int → Run α)
    (hL : ∀ i x c, L i x c = if i < hi then L (i + 1) (S.add x (g i)) (c ++ [i]) else ⟨x, c⟩) :
    ∀ (n : Nat) (i : Int) (x : α) (c : List Int), (hi - i).toNat = n →
      L i x c = ⟨(indexRange i hi).foldl (fun acc j => S.add acc (g j)) x, c ++ indexRange i hi⟩ := by
  intro n
  induction n with
  | zero =>
    intro i x c hn
    have h : hi ≤ i := by omega
    rw [hL, if_neg (by omega), indexRange_nil h]
    simp
  | succ n ih =>
    intro i x c hn
    have h : i < hi := by omega
    rw [hL, if_pos h, ih (i + 1) _ _ (by omega), indexRange_cons h]
    simp

theorem sum_func_run_eq {α : Type} (S : Scalar α) (lo hi : Int) (f : Int → α) :
    sum_func_run S lo hi f = ⟨foldSum S lo hi f, indexRange lo hi⟩ := by
  unfold sum_func_run foldSum
  rw [loop_spec S hi f (sum_func_loop S hi f) (fun i x c => by rw [sum_func_loop]) _ lo _ _ rfl]
  simp

theorem sum_template_run_eq {α T : Type} (S : Scalar α) (call : T → Int → α) (lo hi : Int)
    (f : T) : sum_template_run S call lo hi f = ⟨foldSum S lo hi (call f), indexRange lo hi⟩ := by
  unfold sum_template_run foldSum
  rw [loop_spec S hi (call f) (sum_template_loop S call hi f)
    (fun i x c => by rw [sum_template_loop]) _ lo _ _ rfl]
  simp

theorem sum_std_function_run_eq {α : Type} (S : Scalar α) (lo hi : Int) (f : StdFunction α) :
    sum_std_function_run S lo hi f = ⟨foldSum S lo hi f.target, indexRange lo hi⟩ := by
  unfold sum_std_function_run foldSum
  rw [loop_spec S hi f.target (sum_std_function_loop S hi f)
    (fun i x c => by rw [sum_std_function_loop]; rfl) _ lo _ _ rfl]
  simp

theorem sum_interface_run_eq {α : Type} (S : Scalar α) (lo hi : Int) (f : Func α) :
    sum_interface_run S lo hi f = ⟨foldSum S lo hi f.f, indexRange lo hi⟩ := by
  unfold sum_interface_run foldSum
  rw [loop_spec S hi f.f (sum_interface_loop S hi f)
    (fun i x c => by rw [sum_interface_loop]) _ lo _ _ rfl]
  simp

theorem Adder.sum_run_eq {α : Type} (S : Scalar α) (self : Adder α) (lo hi : Int) :
    Adder.sum_run S self lo hi = ⟨foldSum S lo hi self.f, indexRange lo hi⟩ := by
  unfold Adder.sum_run foldSum
  rw [loop_spec S hi self.f (Adder.sum_loop S self hi)
    (fun i x c => by rw [Adder.sum_loop]) _ lo _ _ rfl]
  simp

theorem sum_macro_loop_eq {α : Type} (S : Scalar α) (hi : Int) (f : Int → α) :
    ∀ (n : Nat) (i : Int) (x : α) (c : List Int), (hi - i).toNat = n →
      sum_macro_loop S hi f i x c =
        ⟨max i hi, (indexRange i hi).foldl (fun acc j => S.add acc (f j)) x,
          c ++ indexRange i hi⟩ := by
  intro n
  induction n with
  | zero =>
    intro i x c hn
    have h : hi ≤ i := by omega
    rw [sum_macro_loop, if_neg (by omega), indexRange_nil h, max_eq_left h]
    simp
  | succ n ih =>
    intro i x c hn
    have h : i < hi := by omega
    rw [sum_macro_loop, if_pos h, ih (i + 1) _ _ (by omega), indexRange_cons h,
      max_eq_right (by omega : i + 1 ≤ hi), max_eq_right (le_of_lt h)]
    simp

theorem sum_macro_run_eq {α : Type} (S : Scalar α) (lo hi : Int) (f : Int → α) :
    sum_macro_run S lo hi f = ⟨max lo hi, foldSum S lo hi f, indexRange lo hi⟩ := by
  unfold sum_macro_run foldSum
  rw [sum_macro_loop_eq S hi f _ lo _ _ rfl]
  simp

theorem indexRange_pairwise (lo hi : Int) : (indexRange lo hi).Pairwise (fun a b => a < b) := by
  unfold indexRange
  rw [List.pairwise_map]
  refine (List.pairwise_lt_range _).imp ?_
  intro a b hab
  omega

theorem sum_func_eq {α : Type} (S : Scalar α) (lo hi : Int) (f : Int → α) :
    sum_func S lo hi f = foldSum S lo hi f := by
  simp [sum_func, sum_func_run_eq]

theorem sum_template_eq {α T : Type} (S : Scalar α) (call : T → Int → α) (lo hi : Int)
    (f : T) : sum_template S call lo hi f = foldSum S lo hi (call f) := by
  simp [sum_template, sum_template_run_eq]

theorem sum_std_function_eq {α : Type} (S : Scalar α) (lo hi : Int) (f : StdFunction α) :
    sum_std_function S lo hi f = foldSum S lo hi f.target := by
  simp [sum_std_function, sum_std_function_run_eq]

theorem sum_interface_eq {α : Type} (S : Scalar α) (lo hi : Int) (f : Func α) :
    sum_interface S lo hi f = foldSum S lo hi f.f := by
  simp [sum_interface, sum_interface_run_eq]

theorem Adder.sum_eq {α : Type} (S : Scalar α) (self : Adder α) (lo hi : Int) :
    Adder.sum S self lo hi = foldSum S lo hi self.f := by
  simp [Adder.sum, Adder.sum_run_eq]

theorem sum_macro_res_eq {α : Type} (S : Scalar α) (lo hi : Int) (f : Int → α) :
    sum_macro_res S lo hi f = foldSum S lo hi f := by
  simp [sum_macro_res, sum_macro_run_eq]

/-- In integer mode every test class returns the fold of `i*a[i]` over
`[0, SRC_SIZE)`, `a` being the array the class reads. -/
theorem IntMode.int_test_make_eq (v : Variant) (src x : List Int) :
    (IntMode.make v x).test src =
      foldSum IntMode.int32 0 SRC_SIZE (IntMode.mulAt (if IntMode.holdsRef v then x else src)) := by
  cases v <;>
    simp [IntMode.make, IntMode.Test.test, IntMode.holdsRef, IntMode.Test.captured,
      IntMode.Test_Macro.test, IntMode.Test_Lambda.test, IntMode.Test_Lambda_Template.test,
      IntMode.Test_Lambda_Template_Capture.test, IntMode.Test_Lambda_Std.test,
      IntMode.Test_Lambda_Std_Capture.test, IntMode.Test_Interface.test,
      IntMode.Test_Abstract_Class.test, sum_func_eq, sum_template_eq, sum_std_function_eq,
      sum_interface_eq, Adder.sum_eq, sum_macro_res_eq] <;> rfl

/-- In floating-point mode every test class, built with the global array,
returns the fold of `SLOW_FUNC(i, src)` over `[0, SRC_SIZE)`. -/
theorem FloatMode.float_test_make_eq {F : Type} (ops : FloatMode.FloatOps F) (v : Variant)
    (src : List F) :
    (FloatMode.make v src).test ops src =
      foldSum (FloatMode.scalar ops) 0 SRC_SIZE (fun i => FloatMode.SLOW_FUNC ops i src) := by
  cases v <;>
    simp [FloatMode.make, FloatMode.Test.test,
      FloatMode.Test_Macro.test, FloatMode.Test_Lambda.test, FloatMode.Test_Lambda_Template.test,
      FloatMode.Test_Lambda_Template_Capture.test, FloatMode.Test_Lambda_Std.test,
      FloatMode.Test_Lambda_Std_Capture.test, FloatMode.Test_Interface.test,
      FloatMode.Test_Abstract_Class.test, sum_func_eq, sum_template_eq, sum_std_function_eq,
      sum_interface_eq, Adder.sum_eq, sum_macro_res_eq] <;> rfl

/-! ## Wraparound arithmetic -/

theorem wrapN_add_left (w : Nat) (a b : Int) : wrapN w (wrapN w a + b) = wrapN w (a + b) := by
  unfold wrapN
  have h : (a + 2 ^ (w - 1)) % 2 ^ w - 2 ^ (w - 1) + b + 2 ^ (w - 1)
      = (a + 2 ^ (w - 1)) % 2 ^ w + b := by ring
  rw [h, Int.emod_add_emod]
  have h2 : a + 2 ^ (w - 1) + b = a + b + 2 ^ (w - 1) := by ring
  rw [h2]

theorem wrapN_add_right (w : Nat) (a b : Int) : wrapN w (a + wrapN w b) = wrapN w (a + b) := by
  rw [add_comm, wrapN_add_left, add_comm]

theorem wrapN_idem (w : Nat) (a : Int) : wrapN w (wrapN w a) = wrapN w a := by
  have h := wrapN_add_left w a 0
  simpa using h

theorem wrap32_of_range {z : Int} (h1 : -2147483648 ≤ z) (h2 : z < 2147483648) :
    wrap32 z = z := by
  unfold wrap32 wrapN
  have h : (z + 2 ^ (32 - 1)) % 2 ^ 32 = z + 2 ^ (32 - 1) := by
    apply Int.emod_eq_of_lt
    · norm_num; omega
    · norm_num; omega
  rw [h]
  ring

theorem wrap32_range (z : Int) : -2147483648 ≤ wrap32 z ∧ wrap32 z < 2147483648 := by
  unfold wrap32 wrapN
  have h1 : (0 : Int) ≤ (z + 2 ^ (32 - 1)) % 2 ^ 32 := Int.emod_nonneg _ (by norm_num)
  have h2 : (z + 2 ^ (32 - 1)) % 2 ^ 32 < 2 ^ 32 := Int.emod_lt_of_pos _ (by norm_num)
  norm_num at h1 h2 ⊢
  constructor <;> omega

/-- The `int` accumulator loop started at `wrap32 a` ends at the wrapped exact sum. -/
theorem foldl_int32 (f : Int → Int) (l : List Int) (a : Int) :
    l.foldl (fun acc i => IntMode.int32.add acc (f i)) (wrap32 a)
      = wrap32 (a + (l.map f).sum) := by
  induction l generalizing a with
  | nil => simp
  | cons j t ih =>
    simp only [List.foldl_cons, List.map_cons, List.sum_cons]
    have h : IntMode.int32.add (wrap32 a) (f j) = wrap32 (a + f j) := by
      show wrap32 (wrap32 a + f j) = wrap32 (a + f j)
      exact wrapN_add_left 32 a (f j)
    rw [h, ih, add_assoc]

theorem foldSum_int32 (lo hi : Int) (f : Int → Int) :
    foldSum IntMode.int32 lo hi f = wrap32 (((indexRange lo hi).map f).sum) := by
  unfold foldSum
  have h0 : IntMode.int32.zero = wrap32 0 := by
    show (0 : Int) = wrap32 0
    rw [wrap32_of_range (by norm_num) (by norm_num)]
  rw [h0, foldl_int32, zero_add]

theorem Ico_eq_insert {lo hi : Int} (h : lo < hi) :
    Finset.Ico lo hi = insert lo (Finset.Ico (lo + 1) hi) := by
  ext j
  simp only [Finset.mem_Ico, Finset.mem_insert]
  omega

theorem sum_indexRange (f : Int → Int) :
    ∀ (n : Nat) (lo hi : Int), (hi - lo).toNat = n →
      ((indexRange lo hi).map f).sum = ∑ i ∈ Finset.Ico lo hi, f i := by
  intro n
  induction n with
  | zero =>
    intro lo hi hn
    have h : hi ≤ lo := by omega
    rw [indexRange_nil h, Finset.Ico_eq_empty (by omega)]
    simp
  | succ n ih =>
    intro lo hi hn
    have h : lo < hi := by omega
    rw [indexRange_cons h, Ico_eq_insert h, Finset.sum_insert (by simp), List.map_cons,
      List.sum_cons, ih (lo + 1) hi (by omega)]

/-- Six times the sum of the first `n` squares. -/
theorem six_sum_squares (n : Nat) :
    6 * ((List.range n).map (fun (k : Nat) => (k : Int) * (k : Int))).sum
      = (n : Int) * ((n : Int) - 1) * (2 * (n : Int) - 1) := by
  induction n with
  | zero => simp
  | succ n ih =>
    rw [List.range_succ, List.map_append, List.sum_append, mul_add, ih]
    simp only [List.map_cons, List.map_nil, List.sum_cons, List.sum_nil, add_zero]
    push_cast
    ring

theorem readAt_canonical {i : Int} (h0 : 0 ≤ i) (h1 : i < SRC_SIZE) :
    readAt 0 IntMode.canonical i = i := by
  have hs : SRC_SIZE.toNat = 10000 := rfl
  have h1' : i < 10000 := h1
  unfold readAt IntMode.canonical
  rw [if_pos h0, hs, List.getD_eq_getElem?_getD, List.getElem?_map,
    List.getElem?_range (by omega)]
  simp only [Option.map_some', Option.getD_some]
  omega

theorem mulAt_canonical {i : Int} (h0 : 0 ≤ i) (h1 : i < SRC_SIZE) :
    IntMode.mulAt IntMode.canonical i = i * i := by
  have h1' : i < 10000 := h1
  unfold IntMode.mulAt
  rw [readAt_canonical h0 h1]
  apply wrap32_of_range
  · nlinarith
  · nlinarith

theorem sum_canonical :
    ((indexRange 0 SRC_SIZE).map (IntMode.mulAt IntMode.canonical)).sum = 333283335000 := by
  have hmap : (indexRange 0 SRC_SIZE).map (IntMode.mulAt IntMode.canonical)
      = (List.range 10000).map (fun (k : Nat) => (k : Int) * (k : Int)) := by
    have hs : (SRC_SIZE - 0).toNat = 10000 := rfl
    unfold indexRange
    rw [hs, List.map_map]
    apply List.map_congr_left
    intro k hk
    have hk' : k < 10000 := List.mem_range.mp hk
    have hS : SRC_SIZE = 10000 := rfl
    simp only [Function.comp_apply, zero_add]
    exact mulAt_canonical (by omega) (by omega)
  have h6 := six_sum_squares 10000
  rw [hmap]
  norm_num at h6
  omega

theorem wrap32_canonical_sum : wrap32 333283335000 = -1724114088 := by
  unfold wrap32 wrapN
  norm_num

theorem foldSum_canonical :
    foldSum IntMode.int32 0 SRC_SIZE (IntMode.mulAt IntMode.canonical) = -1724114088 := by
  rw [foldSum_int32, sum_canonical, wrap32_canonical_sum]

theorem wrapN_congr (w : Nat) (z : Int) : (2 ^ w : Int) ∣ (z - wrapN w z) := by
  unfold wrapN
  have h := Int.emod_add_ediv (z + 2 ^ (w - 1)) (2 ^ w)
  exact ⟨(z + 2 ^ (w - 1)) / 2 ^ w, by linarith⟩

theorem exact_sum_canonical :
    ∑ i ∈ Finset.Ico 0 SRC_SIZE, i * readAt 0 IntMode.canonical i = 333283335000 := by
  have h : ∑ i ∈ Finset.Ico 0 SRC_SIZE, i * readAt 0 IntMode.canonical i
      = ∑ i ∈ Finset.Ico 0 SRC_SIZE, IntMode.mulAt IntMode.canonical i := by
    apply Finset.sum_congr rfl
    intro i hi
    rw [Finset.mem_Ico] at hi
    rw [mulAt_canonical hi.1 hi.2, readAt_canonical hi.1 hi.2]
  rw [h, ← sum_indexRange _ _ 0 SRC_SIZE rfl, sum_canonical]

/-! ## The measurement loop and the initialisation loop -/

theorem IntMode.int_measure_loop_spec (w : Nat) (world : IntMode.World) :
    ∀ (n : Nat) (i sum : Int), (IntMode.ITERATIONS - i).toNat = n + 1 →
      IntMode.measure_loop w i sum world
        = (wrapN w (sum + ((n : Int) + 1) * world.obj.test world.src), world) := by
  intro n
  induction n with
  | zero =>
    intro i sum hn
    have h : i < IntMode.ITERATIONS := by omega
    rw [IntMode.measure_loop, if_pos h, IntMode.measure_loop, if_neg (by omega)]
    simp only [IntMode.World.call, Nat.cast_zero, zero_add, one_mul]
    rw [wrapN_add_right]
  | succ n ih =>
    intro i sum hn
    have h : i < IntMode.ITERATIONS := by omega
    rw [IntMode.measure_loop, if_pos h]
    simp only [IntMode.World.call]
    rw [ih (i + 1) _ (by omega), wrapN_add_left]
    have hr : sum + wrapN w (world.obj.test world.src)
          + ((n : Int) + 1) * world.obj.test world.src
        = sum + ((n : Int) + 1) * world.obj.test world.src
          + wrapN w (world.obj.test world.src) := by ring
    rw [hr, wrapN_add_right]
    congr 2
    push_cast
    ring

theorem IntMode.int_measure_eq (w : Nat) (world : IntMode.World) :
    IntMode.measure w world = (wrapN w (1000000 * world.obj.test world.src), world) := by
  unfold IntMode.measure
  rw [IntMode.int_measure_loop_spec w world 999999 0 0 rfl]
  norm_num

theorem IntMode.int_main_measures_eq (w : Nat) (src : List Int) (vs : List Variant) :
    IntMode.main_measures w src vs
      = (vs.map (fun v => wrapN w (1000000 * (IntMode.make v src).test src)), src) := by
  induction vs with
  | nil => rfl
  | cons v vs ih =>
    simp only [IntMode.main_measures, IntMode.int_measure_eq, ih, List.map_cons]

theorem FloatMode.float_measure_loop_spec {F : Type} (ops : FloatMode.FloatOps F)
    (world : FloatMode.World F) :
    ∀ (n : Nat) (i : Int) (sum : F), (FloatMode.ITERATIONS - i).toNat = n →
      FloatMode.measure_loop ops i sum world
        = ((fun s => ops.add s (world.obj.test ops world.src))^[n] sum, world) := by
  intro n
  induction n with
  | zero =>
    intro i sum hn
    rw [FloatMode.measure_loop, if_neg (by omega)]
    rfl
  | succ n ih =>
    intro i sum hn
    have h : i < FloatMode.ITERATIONS := by omega
    rw [FloatMode.measure_loop, if_pos h]
    simp only [FloatMode.World.call]
    rw [ih (i + 1) _ (by omega), Function.iterate_succ_apply]

theorem FloatMode.float_measure_eq {F : Type} (ops : FloatMode.FloatOps F)
    (world : FloatMode.World F) :
    FloatMode.measure ops world
      = ((fun s => ops.add s (world.obj.test ops world.src))^[100000] ops.zero, world) := by
  unfold FloatMode.measure
  rw [FloatMode.float_measure_loop_spec ops world 100000 0 _ rfl]

theorem FloatMode.float_main_measures_eq {F : Type} (ops : FloatMode.FloatOps F) (src : List F)
    (vs : List Variant) :
    FloatMode.main_measures ops src vs
      = (vs.map (fun v =>
          (fun s => ops.add s ((FloatMode.make v src).test ops src))^[100000] ops.zero), src) := by
  induction vs with
  | nil => rfl
  | cons v vs ih =>
    simp only [FloatMode.main_measures, FloatMode.float_measure_eq, ih, List.map_cons]

/-- Any loop obeying the unfolding equation of the initialisation loops leaves
the length unchanged and stores `conv j` at every index `j` from `i` on. -/
theorem init_loop_spec {α : Type} (conv : Int → α) (L : Int → List α → List α)
    (hL : ∀ i src, L i src
      = if i < SRC_SIZE then L (i + 1) (src.set i.toNat (conv i)) else src) :
    ∀ (n : Nat) (i : Int) (src : List α), 0 ≤ i → (SRC_SIZE - i).toNat = n →
      src.length = 10000 →
      (L i src).length = 10000 ∧
      ∀ j : Nat, j < 10000 →
        (L i src)[j]? = if i.toNat ≤ j then some (conv (j : Int)) else src[j]? := by
  have hS : SRC_SIZE = 10000 := rfl
  intro n
  induction n with
  | zero =>
    intro i src h0 hn hlen
    rw [hL, if_neg (by omega)]
    refine ⟨hlen, ?_⟩
    intro j hj
    rw [if_neg (by omega)]
  | succ n ih =>
    intro i src h0 hn hlen
    have h : i < SRC_SIZE := by omega
    rw [hL, if_pos h]
    obtain ⟨h1, h2⟩ := ih (i + 1) (src.set i.toNat (conv i)) (by omega) (by omega)
      (by rw [List.length_set]; exact hlen)
    refine ⟨h1, ?_⟩
    intro j hj
    rw [h2 j hj]
    by_cases hij : i.toNat = j
    · have hc : (j : Int) = i := by omega
      rw [if_neg (by omega), if_pos (by omega), hij, List.getElem?_set_self, hc]
      rw [hlen]; exact hj
    · rw [List.getElem?_set_ne hij]
      by_cases hlt : i.toNat ≤ j
      · rw [if_pos (by omega), if_pos hlt]
      · rw [if_neg (by omega), if_neg hlt]

theorem IntMode.int_main_init_eq : IntMode.main_init = IntMode.canonical := by
  have hspec := init_loop_spec (fun i => i) IntMode.main_init_loop
    (fun i src => by rw [IntMode.main_init_loop]) 10000 0 IntMode.src_static (le_refl 0) rfl
    (by unfold IntMode.src_static; rw [List.length_replicate]; rfl)
  have hlen : IntMode.canonical.length = 10000 := by
    unfold IntMode.canonical
    rw [List.length_map, List.length_range]
    rfl
  apply List.ext_getElem?
  intro j
  unfold IntMode.main_init
  by_cases hj : j < 10000
  · rw [hspec.2 j hj, if_pos (by simp)]
    unfold IntMode.canonical
    have hs : SRC_SIZE.toNat = 10000 := rfl
    rw [hs, List.getElem?_map, List.getElem?_range hj]
    rfl
  · rw [List.getElem?_eq_none (by rw [hspec.1]; omega),
      List.getElem?_eq_none (by rw [hlen]; omega)]

theorem FloatMode.float_main_init_eq {F : Type} (ops : FloatMode.FloatOps F) :
    FloatMode.main_init ops = FloatMode.canonical ops := by
  have hspec := init_loop_spec ops.ofInt (FloatMode.main_init_loop ops)
    (fun i src => by rw [FloatMode.main_init_loop]) 10000 0 (FloatMode.src_static ops)
    (le_refl 0) rfl (by unfold FloatMode.src_static; rw [List.length_replicate]; rfl)
  have hlen : (FloatMode.canonical ops).length = 10000 := by
    unfold FloatMode.canonical
    rw [List.length_map, List.length_range]
    rfl
  apply List.ext_getElem?
  intro j
  unfold FloatMode.main_init
  by_cases hj : j < 10000
  · rw [hspec.2 j hj, if_pos (by simp)]
    unfold FloatMode.canonical
    have hs : SRC_SIZE.toNat = 10000 := rfl
    rw [hs, List.getElem?_map, List.getElem?_range hj]
    rfl
  · rw [List.getElem?_eq_none (by rw [hspec.1]; omega),
      List.getElem?_eq_none (by rw [hlen]; omega)]

theorem readAt_float_canonical {F : Type} (ops : FloatMode.FloatOps F) {i : Int}
    (h0 : 0 ≤ i) (h1 : i < SRC_SIZE) :
    readAt ops.zero (FloatMode.canonical ops) i = ops.ofInt i := by
  have hs : SRC_SIZE.toNat = 10000 := rfl
  have h1' : i < 10000 := h1
  unfold readAt FloatMode.canonical
  rw [if_pos h0, hs, List.getD_eq_getElem?_getD, List.getElem?_map,
    List.getElem?_range (by omega)]
  simp only [Option.map_some', Option.getD_some]
  congr 1
  omega

/-! ## Dependence of `test()` on the arrays -/

theorem int_test_canonical (v : Variant) (src x : List Int)
    (h : (if IntMode.holdsRef v then x else src) = IntMode.canonical) :
    (IntMode.make v x).test src = -1724114088 := by
  rw [IntMode.int_test_make_eq, h, foldSum_canonical]

theorem readAt_replicate_zero (n : Nat) (i : Int) : readAt 0 (List.replicate n (0 : Int)) i = 0 := by
  unfold readAt
  split
  · rw [List.getD_eq_getElem?_getD]
    by_cases hi : i.toNat < n
    · rw [List.getElem?_replicate, if_pos hi]
      rfl
    · rw [List.getElem?_eq_none (by rw [List.length_replicate]; omega)]
      rfl
  · rfl

theorem int_test_zeros (v : Variant) (src x : List Int)
    (h : (if IntMode.holdsRef v then x else src) = IntMode.src_static) :
    (IntMode.make v x).test src = 0 := by
  rw [IntMode.int_test_make_eq, h, foldSum_int32]
  have hz : (indexRange 0 SRC_SIZE).map (IntMode.mulAt IntMode.src_static)
      = (indexRange 0 SRC_SIZE).map (fun _ => (0 : Int)) := by
    apply List.map_congr_left
    intro i _
    unfold IntMode.mulAt IntMode.src_static
    rw [readAt_replicate_zero, mul_zero]
    exact wrap32_of_range (by norm_num) (by norm_num)
  rw [hz]
  simp only [List.map_const', List.sum_replicate, smul_zero]
  exact wrap32_of_range (by norm_num) (by norm_num)

/-! ## Equivalence of the dispatch mechanisms -/

/-- C1: for every accumulator arithmetic, range `lo, hi` and per-index function
`f`, the routines `sum_template`, `sum_std_function`, `sum_interface`,
`Adder::sum` and the `sum_macro` expansion return the same value as `sum_func`;
and for every array contents, with the supplied array equal to the global one,
the `test()` of any two of the eight test classes return the same value, in
integer mode and (for any floating-point operations) in floating-point mode. -/
theorem routines_and_tests_agree :
    (∀ (α : Type) (S : Scalar α) (lo hi : Int) (f : Int → α),
      (∀ (T : Type) (call : T → Int → α) (c : T),
        sum_template S call lo hi c = sum_func S lo hi (call c)) ∧
      sum_template S (fun (g : Int → α) i => g i) lo hi f = sum_func S lo hi f ∧
      sum_std_function S lo hi ⟨f⟩ = sum_func S lo hi f ∧
      sum_interface S lo hi ⟨f⟩ = sum_func S lo hi f ∧
      Adder.sum S ⟨f⟩ lo hi = sum_func S lo hi f ∧
      sum_macro_res S lo hi f = sum_func S lo hi f) ∧
    (∀ (src : List Int) (v v' : Variant),
      (IntMode.make v src).test src = (IntMode.make v' src).test src) ∧
    (∀ (F : Type) (ops : FloatMode.FloatOps F) (src : List F) (v v' : Variant),
      (FloatMode.make v src).test ops src = (FloatMode.make v' src).test ops src) := by
  refine ⟨?_, ?_, ?_⟩
  · intro α S lo hi f
    refine ⟨?_, ?_, ?_, ?_, ?_, ?_⟩
    · intro T call c
      rw [sum_template_eq, sum_func_eq]
    · rw [sum_template_eq, sum_func_eq]
    · rw [sum_std_function_eq, sum_func_eq]
    · rw [sum_interface_eq, sum_func_eq]
    · rw [Adder.sum_eq, sum_func_eq]
    · rw [sum_macro_res_eq, sum_func_eq]
  · intro src v v'
    rw [IntMode.int_test_make_eq, IntMode.int_test_make_eq]
    simp
  · intro F ops src v v'
    rw [FloatMode.float_test_make_eq, FloatMode.float_test_make_eq]

/-! ## The routines compute the ascending left fold -/

/-- C2: for every `lo ≤ hi` and every per-index function `f`, each summation
routine returns the left-to-right fold of the accumulator addition over
`f(lo), f(lo+1), ..., f(hi-1)` starting from zero, and invokes `f` at exactly
the indices `lo, lo+1, ..., hi-1`: each index of `[lo, hi)` once, in strictly
ascending order, `hi - lo` calls in all. -/
theorem routines_are_ascending_fold {α : Type} (S : Scalar α) (lo hi : Int) (f : Int → α)
    (h : lo ≤ hi) :
    let idx := (List.range (hi - lo).toNat).map (fun (k : Nat) => lo + (k : Int))
    let spec : Run α := ⟨idx.foldl (fun acc i => S.add acc (f i)) S.zero, idx⟩
    (sum_func_run S lo hi f = spec ∧
      sum_template_run S (fun (g : Int → α) i => g i) lo hi f = spec ∧
      sum_std_function_run S lo hi ⟨f⟩ = spec ∧
      sum_interface_run S lo hi ⟨f⟩ = spec ∧
      Adder.sum_run S ⟨f⟩ lo hi = spec ∧
      sum_macro_run S lo hi f = ⟨hi, spec.result, spec.calls⟩) ∧
    idx.length = (hi - lo).toNat ∧
    idx.Pairwise (fun a b => a < b) ∧
    idx.Nodup ∧
    (∀ j : Int, j ∈ idx ↔ lo ≤ j ∧ j < hi) := by
  intro idx spec
  have hidx : idx = indexRange lo hi := rfl
  have hspec : spec = ⟨foldSum S lo hi f, indexRange lo hi⟩ := rfl
  refine ⟨⟨?_, ?_, ?_, ?_, ?_, ?_⟩, ?_, ?_, ?_, ?_⟩
  · rw [sum_func_run_eq, hspec]
  · rw [sum_template_run_eq, hspec]
  · rw [sum_std_function_run_eq, hspec]
  · rw [sum_interface_run_eq, hspec]
  · rw [Adder.sum_run_eq, hspec]
  · rw [sum_macro_run_eq, hspec, max_eq_right h]
  · rw [hidx, indexRange_length]
  · rw [hidx]; exact indexRange_pairwise lo hi
  · rw [hidx]
    exact (indexRange_pairwise lo hi).imp (fun hab => ne_of_lt hab)
  · intro j
    rw [hidx]
    exact mem_indexRange

/-- Witness of C2 on the range `[2, 5)` with the integer accumulator. -/
theorem routines_are_ascending_fold_witness :
    (2 : Int) ≤ 5 ∧ sum_func_run IntMode.int32 2 5 id = ⟨9, [2, 3, 4]⟩ := by
  refine ⟨by decide, ?_⟩
  have h := (routines_are_ascending_fold IntMode.int32 2 5 id (by decide)).1.1
  rw [h]
  decide

/-! ## Empty range -/

/-- C5: for every per-index function `f` and every `lo`, `hi` with `lo = hi`,
each summation routine returns zero and its call list is empty: `f` is never
invoked. -/
theorem empty_range_zero_no_call {α : Type} (S : Scalar α) (lo hi : Int) (f : Int → α)
    (h : lo = hi) :
    sum_macro_run S lo hi f = ⟨lo, S.zero, []⟩ ∧
    sum_func_run S lo hi f = ⟨S.zero, []⟩ ∧
    sum_template_run S (fun (g : Int → α) i => g i) lo hi f = ⟨S.zero, []⟩ ∧
    sum_std_function_run S lo hi ⟨f⟩ = ⟨S.zero, []⟩ ∧
    sum_interface_run S lo hi ⟨f⟩ = ⟨S.zero, []⟩ ∧
    Adder.sum_run S ⟨f⟩ lo hi = ⟨S.zero, []⟩ ∧
    sum_macro_res S lo hi f = S.zero ∧
    sum_func S lo hi f = S.zero ∧
    sum_template S (fun (g : Int → α) i => g i) lo hi f = S.zero ∧
    sum_std_function S lo hi ⟨f⟩ = S.zero ∧
    sum_interface S lo hi ⟨f⟩ = S.zero ∧
    Adder.sum S ⟨f⟩ lo hi = S.zero := by
  subst h
  have hnil : indexRange lo lo = [] := indexRange_nil (le_refl lo)
  have hz : ∀ g : Int → α, foldSum S lo lo g = S.zero := by
    intro g
    simp [foldSum, hnil]
  refine ⟨?_, ?_, ?_, ?_, ?_, ?_, ?_, ?_, ?_, ?_, ?_, ?_⟩
  · rw [sum_macro_run_eq, hz, hnil, max_self]
  · rw [sum_func_run_eq, hz, hnil]
  · rw [sum_template_run_eq, hz, hnil]
  · rw [sum_std_function_run_eq, hz, hnil]
  · rw [sum_interface_run_eq, hz, hnil]
  · rw [Adder.sum_run_eq, hz, hnil]
  · rw [sum_macro_res_eq, hz]
  · rw [sum_func_eq, hz]
  · rw [sum_template_eq, hz]
  · rw [sum_std_function_eq, hz]
  · rw [sum_interface_eq, hz]
  · rw [Adder.sum_eq, hz]

/-- Witness of C5 at `lo = hi = 7` with the integer accumulator. -/
theorem empty_range_zero_no_call_witness :
    (7 : Int) = 7 ∧ sum_func_run IntMode.int32 7 7 id = ⟨0, []⟩ :=
  ⟨rfl, (empty_range_zero_no_call IntMode.int32 7 7 id rfl).2.1⟩

/-! ## Integer mode: wraparound of the `int` accumulator -/

/-- C9: in integer mode, for every `lo ≤ hi` and every `f`, each summation
routine returns the exact sum of `f(i)` over `[lo, hi)` reduced modulo `2^32`
into the signed 32-bit range (a value of `[-2^31, 2^31)` congruent to the exact
sum; the routine is total and raises no error); on the canonical input over
`[0, 10000)` the exact sum is `333283335000` and the returned value is that
number wrapped to 32 bits. -/
theorem int_routines_wrap_exact_sum (lo hi : Int) (f : Int → Int) (_h : lo ≤ hi) :
    (sum_macro_res IntMode.int32 lo hi f = wrap32 (∑ i ∈ Finset.Ico lo hi, f i) ∧
      sum_func IntMode.int32 lo hi f = wrap32 (∑ i ∈ Finset.Ico lo hi, f i) ∧
      sum_template IntMode.int32 (fun (g : Int → Int) i => g i) lo hi f
        = wrap32 (∑ i ∈ Finset.Ico lo hi, f i) ∧
      sum_std_function IntMode.int32 lo hi ⟨f⟩ = wrap32 (∑ i ∈ Finset.Ico lo hi, f i) ∧
      sum_interface IntMode.int32 lo hi ⟨f⟩ = wrap32 (∑ i ∈ Finset.Ico lo hi, f i) ∧
      Adder.sum IntMode.int32 ⟨f⟩ lo hi = wrap32 (∑ i ∈ Finset.Ico lo hi, f i)) ∧
    (-2 ^ 31 ≤ wrap32 (∑ i ∈ Finset.Ico lo hi, f i) ∧
      wrap32 (∑ i ∈ Finset.Ico lo hi, f i) < 2 ^ 31 ∧
      (2 ^ 32 : Int) ∣ (∑ i ∈ Finset.Ico lo hi, f i) - wrap32 (∑ i ∈ Finset.Ico lo hi, f i)) ∧
    (∑ i ∈ Finset.Ico 0 SRC_SIZE, i * readAt 0 IntMode.canonical i = 333283335000 ∧
      sum_macro_res IntMode.int32 0 SRC_SIZE (IntMode.mulAt IntMode.canonical)
        = wrap32 333283335000 ∧
      sum_func IntMode.int32 0 SRC_SIZE (IntMode.mulAt IntMode.canonical)
        = wrap32 333283335000 ∧
      sum_template IntMode.int32 (fun (g : Int → Int) i => g i) 0 SRC_SIZE
        (IntMode.mulAt IntMode.canonical) = wrap32 333283335000 ∧
      sum_std_function IntMode.int32 0 SRC_SIZE ⟨IntMode.mulAt IntMode.canonical⟩
        = wrap32 333283335000 ∧
      sum_interface IntMode.int32 0 SRC_SIZE ⟨IntMode.mulAt IntMode.canonical⟩
        = wrap32 333283335000 ∧
      Adder.sum IntMode.int32 ⟨IntMode.mulAt IntMode.canonical⟩ 0 SRC_SIZE
        = wrap32 333283335000) := by
  have hfold : ∀ (a b : Int) (g : Int → Int),
      foldSum IntMode.int32 a b g = wrap32 (∑ i ∈ Finset.Ico a b, g i) := by
    intro a b g
    rw [foldSum_int32, sum_indexRange g _ a b rfl]
  have hcan : foldSum IntMode.int32 0 SRC_SIZE (IntMode.mulAt IntMode.canonical)
      = wrap32 333283335000 := by
    rw [foldSum_canonical, wrap32_canonical_sum]
  refine ⟨⟨?_, ?_, ?_, ?_, ?_, ?_⟩, ⟨?_, ?_, ?_⟩, exact_sum_canonical, ?_, ?_, ?_, ?_, ?_, ?_⟩
  · rw [sum_macro_res_eq, hfold]
  · rw [sum_func_eq, hfold]
  · rw [sum_template_eq, hfold]
  · rw [sum_std_function_eq, hfold]
  · rw [sum_interface_eq, hfold]
  · rw [Adder.sum_eq, hfold]
  · have := (wrap32_range (∑ i ∈ Finset.Ico lo hi, f i)).1
    norm_num
    exact this
  · have := (wrap32_range (∑ i ∈ Finset.Ico lo hi, f i)).2
    norm_num
    exact this
  · exact wrapN_congr 32 _
  · rw [sum_macro_res_eq, hcan]
  · rw [sum_func_eq, hcan]
  · rw [sum_template_eq, hcan]
  · rw [sum_std_function_eq, hcan]
  · rw [sum_interface_eq, hcan]
  · rw [Adder.sum_eq, hcan]

/-- Witness of C9: two terms `2^31 - 1` over `[0, 2)` sum to `2^32 - 2`, returned as `-2`. -/
theorem int_routines_wrap_exact_sum_witness :
    (0 : Int) ≤ 2 ∧ sum_func IntMode.int32 0 2 (Function.const Int 2147483647) = -2 := by
  refine ⟨by decide, ?_⟩
  rw [(int_routines_wrap_exact_sum 0 2 (Function.const Int 2147483647) (by decide)).1.2.1]
  have hs : ∑ i ∈ Finset.Ico (0 : Int) 2, Function.const Int (2147483647 : Int) i
      = 4294967294 := by
    simp [Finset.sum_const]
  rw [hs]
  unfold wrap32 wrapN
  norm_num

/-! ## Integer mode: the canonical single-run result -/

/-- C3 as stated fails: on the canonical input `Test_Macro::test` does not
return `333283335000`, a number outside the range of the `int` accumulator. -/
theorem canonical_single_run_not_exact :
    (IntMode.make Variant.Test_Macro IntMode.canonical).test IntMode.canonical
      ≠ 333283335000 := by
  rw [IntMode.int_test_make_eq]
  simp only [IntMode.holdsRef, IntMode.make, IntMode.Test.captured, Option.isSome_none,
    Bool.false_eq_true, if_false]
  rw [foldSum_canonical]
  decide

/-- C3 (amended): in integer mode on the canonical input the exact sum of
`i * src[i]` over `[0, 10000)` is `333283335000 = n(n-1)(2n-1)/6` for
`n = 10000`, and the single-run result of `test()` of every variant, as returned
in the 32-bit `int` accumulator, is that sum wrapped modulo `2^32` into the
signed range, namely `-1724114088 = 333283335000 - 78 * 2^32`. -/
theorem canonical_single_run_wrapped (v : Variant) :
    (IntMode.make v IntMode.canonical).test IntMode.canonical = wrap32 333283335000 ∧
    wrap32 333283335000 = -1724114088 ∧
    (333283335000 : Int) - 78 * 2 ^ 32 = -1724114088 ∧
    ∑ i ∈ Finset.Ico 0 SRC_SIZE, i * readAt 0 IntMode.canonical i = 333283335000 ∧
    (333283335000 : Int) = SRC_SIZE * (SRC_SIZE - 1) * (2 * SRC_SIZE - 1) / 6 := by
  refine ⟨?_, wrap32_canonical_sum, by norm_num, exact_sum_canonical, by decide⟩
  rw [IntMode.int_test_make_eq, wrap32_canonical_sum]
  simp only [ite_self]
  exact foldSum_canonical

/-! ## Integer mode: the checksum of `measure` -/

/-- C4 as stated fails when `long` has 64 bits: on the canonical input the
checksum of `measure` for `Test_Macro` is not `333283335000 * 1000000` wrapped
to 64 bits (that product fits and is positive, the checksum is negative). -/
theorem canonical_checksum_not_exact_product :
    (IntMode.measure 64
        ⟨IntMode.canonical, IntMode.make Variant.Test_Macro IntMode.canonical⟩).1
      ≠ wrapN 64 (333283335000 * 1000000) := by
  rw [IntMode.int_measure_eq]
  simp only []
  rw [int_test_canonical Variant.Test_Macro _ _ (ite_self _)]
  unfold wrapN
  norm_num

/-- C4 (amended): in integer mode on the canonical input, for every variant and
every width of `long`, the checksum that `measure` accumulates over
`ITERATIONS = 1000000` calls of `test()` equals `1000000` times the single-run
`int` result (`333283335000` wrapped to 32 bits, i.e. `-1724114088`), wrapped to
the width of `long`; with a 64-bit `long` this is `-1724114088000000`, and with
a 32-bit `long` it coincides with `333283335000 * 1000000` wrapped to 32 bits. -/
theorem canonical_checksum_wrapped (longBits : Nat) (v : Variant) :
    (IntMode.measure longBits
        ⟨IntMode.canonical, IntMode.make v IntMode.canonical⟩).1
      = wrapN longBits (IntMode.ITERATIONS * wrap32 333283335000) ∧
    IntMode.ITERATIONS = 1000000 ∧
    wrapN 64 (IntMode.ITERATIONS * wrap32 333283335000) = -1724114088000000 ∧
    wrapN 32 (IntMode.ITERATIONS * wrap32 333283335000)
      = wrapN 32 (333283335000 * 1000000) := by
  refine ⟨?_, rfl, ?_, ?_⟩
  · rw [IntMode.int_measure_eq]
    simp only []
    rw [int_test_canonical v _ _ (ite_self _), wrap32_canonical_sum]
    rfl
  · rw [wrap32_canonical_sum]
    unfold wrapN IntMode.ITERATIONS
    norm_num
  · rw [wrap32_canonical_sum]
    unfold wrapN IntMode.ITERATIONS
    norm_num

/-! ## No state is carried between runs -/

/-- C8: after the initialisation loop of `main` the array `src` has length
`10000` and `src[i] = i` for every `i` in `[0, 10000)` (in floating-point mode
`src[i] = (float) i`); and the checksums printed by `main` are those of the
nine measurements, in program order, each taken with the global array and any
captured array equal to that canonical array: every `test()` call of every
measurement returns its value on the canonical input. -/
theorem main_initialises_then_measures :
    (IntMode.main_init.length = 10000 ∧
      (∀ i : Int, 0 ≤ i → i < 10000 → readAt 0 IntMode.main_init i = i) ∧
      IntMode.main_init = IntMode.canonical ∧
      ∀ longBits : Nat,
        IntMode.main longBits
          = (IntMode.main_order.map (fun v =>
              (IntMode.measure longBits
                ⟨IntMode.canonical, IntMode.make v IntMode.canonical⟩).1), 0) ∧
        IntMode.main longBits
          = (IntMode.main_order.map (fun v =>
              wrapN longBits (1000000 *
                (IntMode.make v IntMode.canonical).test IntMode.canonical)), 0)) ∧
    (∀ (F : Type) (ops : FloatMode.FloatOps F),
      (FloatMode.main_init ops).length = 10000 ∧
      (∀ i : Int, 0 ≤ i → i < 10000 →
        readAt ops.zero (FloatMode.main_init ops) i = ops.ofInt i) ∧
      FloatMode.main_init ops = FloatMode.canonical ops ∧
      FloatMode.main ops
        = (FloatMode.main_order.map (fun v =>
            (FloatMode.measure ops
              ⟨FloatMode.canonical ops, FloatMode.make v (FloatMode.canonical ops)⟩).1), 0) ∧
      FloatMode.main ops
        = (FloatMode.main_order.map (fun v =>
            (fun s => ops.add s
              ((FloatMode.make v (FloatMode.canonical ops)).test ops
                (FloatMode.canonical ops)))^[100000] ops.zero), 0)) := by
  refine ⟨⟨?_, ?_, IntMode.int_main_init_eq, ?_⟩, ?_⟩
  · rw [IntMode.int_main_init_eq]
    unfold IntMode.canonical
    rw [List.length_map, List.length_range]
    rfl
  · intro i h0 h1
    rw [IntMode.int_main_init_eq]
    exact readAt_canonical h0 h1
  · intro longBits
    unfold IntMode.main
    rw [IntMode.int_main_init_eq, IntMode.int_main_measures_eq]
    refine ⟨?_, rfl⟩
    simp only [IntMode.int_measure_eq]
  · intro F ops
    refine ⟨?_, ?_, FloatMode.float_main_init_eq ops, ?_⟩
    · rw [FloatMode.float_main_init_eq]
      unfold FloatMode.canonical
      rw [List.length_map, List.length_range]
      rfl
    · intro i h0 h1
      rw [FloatMode.float_main_init_eq]
      exact readAt_float_canonical ops h0 h1
    · unfold FloatMode.main
      rw [FloatMode.float_main_init_eq, FloatMode.float_main_measures_eq]
      refine ⟨?_, rfl⟩
      simp only [FloatMode.float_measure_eq]

/-! ## Which variants hold a reference to a supplied array -/

/-- C10 as stated fails: no two variants account for all the variants whose
result depends on the supplied array. -/
theorem not_only_two_variants_use_supplied_array :
    ¬ ∃ a b : Variant, ∀ v : Variant,
      (∃ src x x' : List Int, (IntMode.make v x).test src ≠ (IntMode.make v x').test src) →
        v = a ∨ v = b := by
  rintro ⟨a, b, h⟩
  have dep : ∀ v : Variant, IntMode.holdsRef v = true →
      ∃ src x x' : List Int, (IntMode.make v x).test src ≠ (IntMode.make v x').test src := by
    intro v hv
    refine ⟨[], IntMode.canonical, IntMode.src_static, ?_⟩
    rw [int_test_canonical v _ _ (by rw [if_pos hv]), int_test_zeros v _ _ (by rw [if_pos hv])]
    decide
  have h1 := h Variant.Test_Lambda_Template_Capture (dep _ rfl)
  have h2 := h Variant.Test_Lambda_Std_Capture (dep _ rfl)
  have h3 := h Variant.Test_Interface (dep _ rfl)
  rcases h1 with h1 | h1 <;> rcases h2 with h2 | h2 <;> rcases h3 with h3 | h3 <;>
    subst_vars <;> simp_all

/-- C10 (amended): exactly four of the eight variants, `Test_Lambda_Template_Capture`,
`Test_Lambda_Std_Capture`, `Test_Interface` and `Test_Abstract_Class`, hold a
reference to an externally supplied array; each computes its sum from that
array (its result does not depend on the global `src` and does depend on the
supplied array).  Each of the other four, `Test_Macro`, `Test_Lambda`,
`Test_Lambda_Template` and `Test_Lambda_Std`, has no member, reads only the
process-wide array `src`, and its result does not depend on any supplied
array. -/
theorem four_variants_hold_supplied_array :
    (Variant.all.filter IntMode.holdsRef
      = [Variant.Test_Lambda_Template_Capture, Variant.Test_Lambda_Std_Capture,
         Variant.Test_Interface, Variant.Test_Abstract_Class]) ∧
    (Variant.all.filter (fun v => !IntMode.holdsRef v)
      = [Variant.Test_Macro, Variant.Test_Lambda, Variant.Test_Lambda_Template,
         Variant.Test_Lambda_Std]) ∧
    (∀ v : Variant, v ∈ Variant.all) ∧
    (∀ v : Variant, IntMode.holdsRef v = true →
      (∀ x : List Int, (IntMode.make v x).captured = some x) ∧
      (∀ src src' x : List Int, (IntMode.make v x).test src = (IntMode.make v x).test src') ∧
      (∃ src x x' : List Int,
        (IntMode.make v x).test src ≠ (IntMode.make v x').test src)) ∧
    (∀ v : Variant, IntMode.holdsRef v = false →
      (∀ x : List Int, (IntMode.make v x).captured = none) ∧
      (∀ src x x' : List Int, (IntMode.make v x).test src = (IntMode.make v x').test src) ∧
      (∃ src src' x : List Int,
        (IntMode.make v x).test src ≠ (IntMode.make v x).test src')) := by
  refine ⟨by decide, by decide, ?_, ?_, ?_⟩
  · intro v
    cases v <;> decide
  · intro v hv
    refine ⟨?_, ?_, ?_⟩
    · intro x
      cases v <;> first | rfl | exact absurd hv (by decide)
    · intro src src' x
      rw [IntMode.int_test_make_eq, IntMode.int_test_make_eq, if_pos hv, if_pos hv]
    · refine ⟨[], IntMode.canonical, IntMode.src_static, ?_⟩
      rw [int_test_canonical v _ _ (by rw [if_pos hv]),
        int_test_zeros v _ _ (by rw [if_pos hv])]
      decide
  · intro v hv
    have hv' : ¬ (IntMode.holdsRef v = true) := by rw [hv]; decide
    refine ⟨?_, ?_, ?_⟩
    · intro x
      cases v <;> first | rfl | exact absurd hv (by decide)
    · intro src x x'
      rw [IntMode.int_test_make_eq, IntMode.int_test_make_eq, if_neg hv', if_neg hv']
    · refine ⟨IntMode.canonical, IntMode.src_static, [], ?_⟩
      rw [int_test_canonical v _ _ (by rw [if_neg hv']),
        int_test_zeros v _ _ (by rw [if_neg hv'])]
      decide

/-! ## Array reads stay in bounds -/

theorem readAtChecked_some (p : List Int) {i : Int} (h0 : 0 ≤ i) (h1 : i < (p.length : Int)) :
    readAtChecked p i = some (readAt 0 p i) := by
  have hlt : i.toNat < p.length := by omega
  unfold readAtChecked readAt
  rw [if_pos h0, if_pos h0, List.getD_eq_getElem?_getD, List.getElem?_eq_getElem hlt]
  rfl

theorem mulAtChecked_some (p : List Int) {i : Int} (h0 : 0 ≤ i) (h1 : i < (p.length : Int)) :
    IntMode.mulAtChecked p i = some (IntMode.mulAt p i) := by
  unfold IntMode.mulAtChecked IntMode.mulAt
  rw [readAtChecked_some p h0 h1]
  rfl

theorem foldl_int32Checked (g : Int → Option Int) (f : Int → Int) (l : List Int)
    (h : ∀ i ∈ l, g i = some (f i)) (a : Int) :
    l.foldl (fun acc i => IntMode.int32Checked.add acc (g i)) (some a)
      = some (l.foldl (fun acc i => IntMode.int32.add acc (f i)) a) := by
  induction l generalizing a with
  | nil => rfl
  | cons j t ih =>
    simp only [List.foldl_cons]
    rw [h j (List.mem_cons_self j t)]
    have hstep : IntMode.int32Checked.add (some a) (some (f j))
        = some (IntMode.int32.add a (f j)) := rfl
    rw [hstep]
    exact ih (fun i hi => h i (List.mem_cons_of_mem j hi)) _

theorem foldSum_int32Checked (lo hi : Int) (g : Int → Option Int) (f : Int → Int)
    (h : ∀ i ∈ indexRange lo hi, g i = some (f i)) :
    foldSum IntMode.int32Checked lo hi g = some (foldSum IntMode.int32 lo hi f) := by
  unfold foldSum
  exact foldl_int32Checked g f _ h 0

theorem int_test_eq_fold (t : IntMode.Test) (src : List Int) :
    t.test src = foldSum IntMode.int32 0 SRC_SIZE (IntMode.mulAt (t.array src)) := by
  cases t <;>
    simp [IntMode.Test.test, IntMode.Test.array, IntMode.Test.captured,
      IntMode.Test_Macro.test, IntMode.Test_Lambda.test, IntMode.Test_Lambda_Template.test,
      IntMode.Test_Lambda_Template_Capture.test, IntMode.Test_Lambda_Std.test,
      IntMode.Test_Lambda_Std_Capture.test, IntMode.Test_Interface.test,
      IntMode.Test_Abstract_Class.test, sum_func_eq, sum_template_eq, sum_std_function_eq,
      sum_interface_eq, Adder.sum_eq, sum_macro_res_eq] <;> rfl

theorem int_testChecked_eq_fold (t : IntMode.Test) (src : List Int) :
    t.testChecked src
      = foldSum IntMode.int32Checked 0 SRC_SIZE (IntMode.mulAtChecked (t.array src)) := by
  cases t <;>
    simp [IntMode.Test.testChecked, IntMode.Test.array, IntMode.Test.captured,
      sum_func_eq, sum_template_eq, sum_std_function_eq,
      sum_interface_eq, Adder.sum_eq, sum_macro_res_eq]

theorem sum_func_callList {α : Type} (S : Scalar α) (lo hi : Int) (f : Int → α) :
    Run.callList (sum_func_run S lo hi f) = indexRange lo hi := by
  rw [sum_func_run_eq]
  rfl

theorem sum_template_callList {α T : Type} (S : Scalar α) (call : T → Int → α) (lo hi : Int)
    (f : T) : Run.callList (sum_template_run S call lo hi f) = indexRange lo hi := by
  rw [sum_template_run_eq]
  rfl

theorem sum_std_function_callList {α : Type} (S : Scalar α) (lo hi : Int)
    (f : StdFunction α) : Run.callList (sum_std_function_run S lo hi f) = indexRange lo hi := by
  rw [sum_std_function_run_eq]
  rfl

theorem sum_interface_callList {α : Type} (S : Scalar α) (lo hi : Int) (f : Func α) :
    Run.callList (sum_interface_run S lo hi f) = indexRange lo hi := by
  rw [sum_interface_run_eq]
  rfl

theorem Adder.sum_callList {α : Type} (S : Scalar α) (self : Adder α) (lo hi : Int) :
    Run.callList (Adder.sum_run S self lo hi) = indexRange lo hi := by
  rw [Adder.sum_run_eq]
  rfl

theorem sum_macro_callList {α : Type} (S : Scalar α) (lo hi : Int) (f : Int → α) :
    MacroRun.callList (sum_macro_run S lo hi f) = indexRange lo hi := by
  rw [sum_macro_run_eq]
  rfl

theorem int_accesses_eq (t : IntMode.Test) (src : List Int) :
    t.accesses src = indexRange 0 SRC_SIZE := by
  cases t
  · exact sum_macro_callList _ _ _ _
  · exact sum_func_callList _ _ _ _
  · exact sum_template_callList _ _ _ _ _
  · exact sum_std_function_callList _ _ _ _
  · exact sum_std_function_callList _ _ _ _
  · exact sum_std_function_callList _ _ _ _
  · exact sum_interface_callList _ _ _ _
  · exact Adder.sum_callList _ _ _ _

/-- C11: for every test object whose array (the global `src`, or the array its
member `x` points to) has length `SRC_SIZE = 10000`, every array read made
during a run of `test()` uses an index `i` with `0 ≤ i < 10000` and the
bounds-checked read at that index succeeds; the run with all reads
bounds-checked never takes the out-of-bounds branch: it returns `some` of the
value `test()` returns. -/
theorem test_reads_in_bounds (t : IntMode.Test) (src : List Int)
    (h : (t.array src).length = 10000) :
    (∀ i ∈ t.accesses src,
      0 ≤ i ∧ i < 10000 ∧
      readAtChecked (t.array src) i = some (readAt 0 (t.array src) i)) ∧
    (∀ i ∈ t.accesses src, readAtChecked (t.array src) i ≠ none) ∧
    (t.accesses src).length = 10000 ∧
    t.testChecked src = some (t.test src) := by
  have hS : SRC_SIZE = 10000 := rfl
  have hmem : ∀ i ∈ indexRange 0 SRC_SIZE, 0 ≤ i ∧ i < ((t.array src).length : Int) := by
    intro i hi
    rw [mem_indexRange] at hi
    rw [h]
    constructor
    · exact hi.1
    · have := hi.2
      rw [hS] at this
      exact_mod_cast this
  have hread : ∀ i ∈ t.accesses src,
      0 ≤ i ∧ i < 10000 ∧
      readAtChecked (t.array src) i = some (readAt 0 (t.array src) i) := by
    intro i hi
    rw [int_accesses_eq] at hi
    have hb := hmem i hi
    rw [mem_indexRange] at hi
    exact ⟨hi.1, hi.2, readAtChecked_some _ hb.1 hb.2⟩
  refine ⟨hread, ?_, ?_, ?_⟩
  · intro i hi hnone
    rw [(hread i hi).2.2] at hnone
    exact Option.some_ne_none _ hnone
  · rw [int_accesses_eq, indexRange_length]
    rfl
  · rw [int_testChecked_eq_fold, int_test_eq_fold]
    apply foldSum_int32Checked
    intro i hi
    exact mulAtChecked_some _ (hmem i hi).1 (hmem i hi).2

/-- Witness of C11: `Test_Interface` constructed with the zero-initialised
array of length `10000`. -/
theorem test_reads_in_bounds_witness :
    ((IntMode.Test.Interface IntMode.src_static).array []).length = 10000 ∧
    (IntMode.Test.Interface IntMode.src_static).testChecked [] = some 0 := by
  have hlen : ((IntMode.Test.Interface IntMode.src_static).array []).length = 10000 := by
    show (List.replicate SRC_SIZE.toNat (0 : Int)).length = 10000
    rw [List.length_replicate]
    rfl
  refine ⟨hlen, ?_⟩
  rw [(test_reads_in_bounds (IntMode.Test.Interface IntMode.src_static) [] hlen).2.2.2]
  exact congrArg some (int_test_zeros Variant.Test_Interface [] IntMode.src_static rfl)

/-! ## Termination and the loop index -/

theorem machine_loop_spec {α : Type} (S : Scalar α) (hi : Int) (g : Int → α)
    (hhi : hi ≤ INT_MAX) :
    ∀ (n fuel : Nat) (i : Int) (x : α) (calls indices : List Int),
      INT_MIN ≤ i → (hi - i).toNat = n → n + 1 ≤ fuel →
      machine_loop S hi g fuel i x calls indices
        = some ⟨(indexRange i hi).foldl (fun acc j => S.add acc (g j)) x,
            calls ++ indexRange i hi,
            indices ++ (indexRange i hi).map (fun j => j + 1)⟩ := by
  have hmax : INT_MAX = 2147483647 := rfl
  have hmin : INT_MIN = -2147483648 := rfl
  intro n
  induction n with
  | zero =>
    intro fuel i x calls indices hi0 hn hfuel
    obtain ⟨fuel, rfl⟩ : ∃ k, fuel = k + 1 := ⟨fuel - 1, by omega⟩
    have h : hi ≤ i := by omega
    rw [machine_loop, if_neg (by omega), indexRange_nil h]
    simp
  | succ n ih =>
    intro fuel i x calls indices hi0 hn hfuel
    obtain ⟨fuel, rfl⟩ : ∃ k, fuel = k + 1 := ⟨fuel - 1, by omega⟩
    have h : i < hi := by omega
    have hw : wrap32 (i + 1) = i + 1 := wrap32_of_range (by omega) (by omega)
    rw [machine_loop, if_pos h, hw, ih fuel (i + 1) _ _ _ (by omega) (by omega) (by omega),
      indexRange_cons h]
    simp

theorem machine_run_spec {α : Type} (S : Scalar α) (lo hi : Int) (g : Int → α)
    (hlo : INT_MIN ≤ lo) (hhi : hi ≤ INT_MAX) (fuel : Nat) (hfuel : (hi - lo).toNat + 1 ≤ fuel) :
    machine_run S lo hi g fuel
      = some ⟨foldSum S lo hi g, indexRange lo hi,
          lo :: (indexRange lo hi).map (fun j => j + 1)⟩ := by
  unfold machine_run foldSum
  rw [machine_loop_spec S hi g hhi _ fuel lo _ _ _ hlo rfl hfuel]
  simp

theorem machine_loop_out_of_fuel {α : Type} (S : Scalar α) (hi : Int) (g : Int → α)
    (hhi : hi ≤ INT_MAX) :
    ∀ (fuel : Nat) (i : Int) (x : α) (calls indices : List Int),
      INT_MIN ≤ i → fuel ≤ (hi - i).toNat →
      machine_loop S hi g fuel i x calls indices = none := by
  have hmax : INT_MAX = 2147483647 := rfl
  have hmin : INT_MIN = -2147483648 := rfl
  intro fuel
  induction fuel with
  | zero =>
    intro i x calls indices _ _
    rfl
  | succ fuel ih =>
    intro i x calls indices hi0 hfuel
    have h : i < hi := by omega
    have hw : wrap32 (i + 1) = i + 1 := wrap32_of_range (by omega) (by omega)
    rw [machine_loop, if_pos h, hw]
    exact ih (i + 1) _ _ _ (by omega) (by omega)

/-- C12 as stated fails: with `lo = 5 > hi = 3` the loop exits at once, and the
index variable, initialised to `lo`, holds `5`, which exceeds `hi`. -/
theorem loop_index_exceeds_hi_when_hi_lt_lo :
    ¬ (∀ r : MachineRun Int, machine_run IntMode.int32 5 3 id 1 = some r →
        ∀ j ∈ r.indices, j ≤ 3) := by
  intro h
  have h5 := h ⟨0, [], [5]⟩ (by decide) 5 (by simp)
  omega

/-- C12 (amended): for every pair of 32-bit ints `lo`, `hi` (including `hi < lo`
and `hi = INT_MAX`) and every total `f`, the summation loop, run with a wrapping
32-bit index, terminates (any fuel above `max(0, hi - lo)` guard evaluations
suffices, no smaller fuel does) with the result and the call list of each of
the six routines; `f` is invoked exactly `max(0, hi - lo)` times; every value
of the loop index is a 32-bit int at most `max(lo, hi)`, at most `hi` when
`lo ≤ hi`, and every `i++` is executed at an index below `hi`, so it never
overflows; the result is zero, with no call, whenever `hi ≤ lo`. -/
theorem loops_terminate_index_bounded {α : Type} (S : Scalar α) (lo hi : Int) (f : Int → α)
    (hlo : INT_MIN ≤ lo ∧ lo ≤ INT_MAX) (hhi : INT_MIN ≤ hi ∧ hi ≤ INT_MAX) :
    let r : MachineRun α :=
      ⟨foldSum S lo hi f, indexRange lo hi, lo :: (indexRange lo hi).map (fun j => j + 1)⟩
    (∀ fuel : Nat, (hi - lo).toNat + 1 ≤ fuel → machine_run S lo hi f fuel = some r) ∧
    (∀ fuel : Nat, fuel ≤ (hi - lo).toNat → machine_run S lo hi f fuel = none) ∧
    (sum_func_run S lo hi f = ⟨r.result, r.calls⟩ ∧
      sum_template_run S (fun (g : Int → α) i => g i) lo hi f = ⟨r.result, r.calls⟩ ∧
      sum_std_function_run S lo hi ⟨f⟩ = ⟨r.result, r.calls⟩ ∧
      sum_interface_run S lo hi ⟨f⟩ = ⟨r.result, r.calls⟩ ∧
      Adder.sum_run S ⟨f⟩ lo hi = ⟨r.result, r.calls⟩ ∧
      sum_macro_run S lo hi f = ⟨max lo hi, r.result, r.calls⟩) ∧
    (r.calls.length : Int) = max 0 (hi - lo) ∧
    (∀ j ∈ r.indices, INT_MIN ≤ j ∧ j ≤ INT_MAX ∧ j ≤ max lo hi) ∧
    (lo ≤ hi → ∀ j ∈ r.indices, j ≤ hi) ∧
    (∀ j ∈ r.calls, j < hi ∧ j + 1 ≤ INT_MAX ∧ wrap32 (j + 1) = j + 1) ∧
    (hi ≤ lo → r.result = S.zero ∧ r.calls = [] ∧ r.indices = [lo]) := by
  have hmax : INT_MAX = 2147483647 := rfl
  have hmin : INT_MIN = -2147483648 := rfl
  intro r
  have hidx : ∀ j ∈ r.indices, (j = lo ∨ ∃ k, lo ≤ k ∧ k < hi ∧ j = k + 1) := by
    intro j hj
    have hj' : j ∈ lo :: (indexRange lo hi).map (fun j => j + 1) := hj
    rw [List.mem_cons, List.mem_map] at hj'
    rcases hj' with h | ⟨k, hk, rfl⟩
    · exact Or.inl h
    · rw [mem_indexRange] at hk
      exact Or.inr ⟨k, hk.1, hk.2, rfl⟩
  refine ⟨?_, ?_, ⟨?_, ?_, ?_, ?_, ?_, ?_⟩, ?_, ?_, ?_, ?_, ?_⟩
  · intro fuel hfuel
    exact machine_run_spec S lo hi f hlo.1 hhi.2 fuel hfuel
  · intro fuel hfuel
    exact machine_loop_out_of_fuel S hi f hhi.2 fuel lo _ _ _ hlo.1 hfuel
  · exact sum_func_run_eq S lo hi f
  · exact sum_template_run_eq S _ lo hi f
  · exact sum_std_function_run_eq S lo hi ⟨f⟩
  · exact sum_interface_run_eq S lo hi ⟨f⟩
  · exact Adder.sum_run_eq S ⟨f⟩ lo hi
  · exact sum_macro_run_eq S lo hi f
  · show ((indexRange lo hi).length : Int) = max 0 (hi - lo)
    rw [indexRange_length]
    omega
  · intro j hj
    rcases hidx j hj with h | ⟨k, hk1, hk2, rfl⟩
    · subst h
      exact ⟨hlo.1, hlo.2, le_max_left _ _⟩
    · refine ⟨by omega, by omega, ?_⟩
      exact le_trans (by omega : k + 1 ≤ hi) (le_max_right _ _)
  · intro hle j hj
    rcases hidx j hj with h | ⟨k, hk1, hk2, rfl⟩
    · subst h
      exact hle
    · omega
  · intro j hj
    have hj' : j ∈ indexRange lo hi := hj
    rw [mem_indexRange] at hj'
    refine ⟨hj'.2, by omega, ?_⟩
    exact wrap32_of_range (by omega) (by omega)
  · intro hle
    have hnil : indexRange lo hi = [] := indexRange_nil hle
    refine ⟨?_, hnil, ?_⟩
    · show foldSum S lo hi f = S.zero
      unfold foldSum
      rw [hnil]
      rfl
    · show lo :: (indexRange lo hi).map (fun j => j + 1) = [lo]
      rw [hnil]
      rfl

/-- Witness of C12 with `hi = INT_MAX`: two iterations from `INT_MAX - 2`, the
last increment reaching `INT_MAX` without overflow. -/
theorem loops_terminate_index_bounded_witness :
    (INT_MIN ≤ 2147483645 ∧ (2147483645 : Int) ≤ INT_MAX) ∧
    (INT_MIN ≤ 2147483647 ∧ (2147483647 : Int) ≤ INT_MAX) ∧
    machine_run IntMode.int32 2147483645 2147483647 (Function.const Int 1) 3
      = some ⟨2, [2147483645, 2147483646], [2147483645, 2147483646, 2147483647]⟩ := by
  refine ⟨by decide, by decide, ?_⟩
  have h := (loops_terminate_index_bounded IntMode.int32 2147483645 2147483647
    (Function.const Int 1) (by decide) (by decide)).1 3 (by decide)
  rw [h]
  decide

/-! ## The 64-bit checksum is exact -/

theorem wrapN64_of_range {z : Int} (h1 : -9223372036854775808 ≤ z)
    (h2 : z < 9223372036854775808) : wrapN 64 z = z := by
  unfold wrapN
  have h : (z + 2 ^ (64 - 1)) % 2 ^ 64 = z + 2 ^ (64 - 1) := by
    apply Int.emod_eq_of_lt
    · norm_num; omega
    · norm_num; omega
  rw [h]
  ring

theorem repeated_int_in_long_range {k r : Int} (hk0 : 0 ≤ k) (hk1 : k ≤ 1000000)
    (hr0 : -2147483648 ≤ r) (hr1 : r < 2147483648) :
    -9223372036854775808 ≤ k * r ∧ k * r < 9223372036854775808 := by
  constructor
  · nlinarith
  · nlinarith

theorem int_test_range (t : IntMode.Test) (src : List Int) :
    -2147483648 ≤ t.test src ∧ t.test src < 2147483648 := by
  rw [int_test_eq_fold, foldSum_int32]
  exact wrap32_range _

/-- C13: in integer mode, with `long` taken as 64-bit, for every test object
and array contents the value `r` returned by `test()` is a 32-bit int, the same
on each call, and the checksum of `measure` equals exactly `1000000 * r` as a
mathematical integer; the accumulator never overflows: after any number
`k ≤ 1000000` of iterations it holds exactly `k * r`, which lies within the
64-bit range because `|r| ≤ 2^31` and `1000000 * 2^31 < 2^63`. -/
theorem measure_checksum_exact_64 (w : IntMode.World) :
    (-2 ^ 31 ≤ w.obj.test w.src ∧ w.obj.test w.src < 2 ^ 31) ∧
    (w.call.1 = w.obj.test w.src ∧ w.call.2.call.1 = w.obj.test w.src) ∧
    (IntMode.measure 64 w).1 = 1000000 * w.obj.test w.src ∧
    (∀ k : Nat, k ≤ 1000000 →
      (IntMode.measure_loop 64 (IntMode.ITERATIONS - k) 0 w).1 = (k : Int) * w.obj.test w.src ∧
      -2 ^ 63 ≤ (k : Int) * w.obj.test w.src ∧
      (k : Int) * w.obj.test w.src < 2 ^ 63) ∧
    (1000000 * 2 ^ 31 : Int) < 2 ^ 63 := by
  have hr := int_test_range w.obj w.src
  have hI : IntMode.ITERATIONS = 1000000 := rfl
  refine ⟨?_, ⟨rfl, rfl⟩, ?_, ?_, by norm_num⟩
  · constructor
    · have := hr.1
      norm_num
      exact this
    · have := hr.2
      norm_num
      exact this
  · rw [IntMode.int_measure_eq]
    have hb := repeated_int_in_long_range (by norm_num : (0 : Int) ≤ 1000000) (le_refl _)
      hr.1 hr.2
    exact wrapN64_of_range hb.1 hb.2
  · intro k hk
    have hb := repeated_int_in_long_range (Int.ofNat_nonneg k)
      (by exact_mod_cast hk : (k : Int) ≤ 1000000) hr.1 hr.2
    refine ⟨?_, ?_, ?_⟩
    · cases k with
      | zero =>
        rw [IntMode.measure_loop, if_neg (by rw [hI]; simp)]
        simp
      | succ n =>
        rw [IntMode.int_measure_loop_spec 64 w n _ 0 (by rw [hI]; push_cast; omega)]
        simp only [zero_add]
        have hc : ((n : Int) + 1) = ((n + 1 : Nat) : Int) := by push_cast; rfl
        rw [hc]
        exact wrapN64_of_range hb.1 hb.2
    · have := hb.1
      norm_num
      exact this
    · have := hb.2
      norm_num
      exact this

/-! ## The per-index product does not wrap on the canonical input -/

/-- C14: in integer mode on the canonical input, for every `i` in `[0, 10000)`
the element read is `src[i] = i`, the per-index term `i * src[i]` equals `i^2`
and lies within the signed 32-bit range (between `0` and `9999^2 = 99980001`),
so the `int` multiplication returns it unwrapped, in every form the per-index
function takes (the macro expression, the two lambdas, `Test_Interface::f`,
`Test_Abstract_Class::f`); the value `test()` returns is the exact sum of these
unwrapped terms reduced once to 32 bits, so any wraparound in a run comes from
the accumulation alone. -/
theorem canonical_terms_do_not_wrap (i : Int) (h0 : 0 ≤ i) (h1 : i < 10000) :
    readAt 0 IntMode.canonical i = i ∧
    i * readAt 0 IntMode.canonical i = i ^ 2 ∧
    (0 ≤ i ^ 2 ∧ i ^ 2 ≤ 99980001 ∧ (99980001 : Int) = 9999 ^ 2) ∧
    (INT_MIN ≤ i * readAt 0 IntMode.canonical i ∧
      i * readAt 0 IntMode.canonical i ≤ INT_MAX) ∧
    IntMode.mulAt IntMode.canonical i = i * readAt 0 IntMode.canonical i ∧
    IntMode.SrcLambda.call ⟨IntMode.canonical⟩ i = i ^ 2 ∧
    IntMode.ThisLambda.call ⟨IntMode.canonical⟩ i = i ^ 2 ∧
    IntMode.Test_Interface.f IntMode.canonical i = i ^ 2 ∧
    IntMode.Test_Abstract_Class.f IntMode.canonical i = i ^ 2 ∧
    (∀ v : Variant,
      (IntMode.make v IntMode.canonical).test IntMode.canonical
        = wrap32 (∑ j ∈ Finset.Ico 0 SRC_SIZE, j * readAt 0 IntMode.canonical j)) := by
  have hS : SRC_SIZE = 10000 := rfl
  have hmax : INT_MAX = 2147483647 := rfl
  have hmin : INT_MIN = -2147483648 := rfl
  have hread : readAt 0 IntMode.canonical i = i := readAt_canonical h0 (by rw [hS]; exact h1)
  have hmul : IntMode.mulAt IntMode.canonical i = i * i :=
    mulAt_canonical h0 (by rw [hS]; exact h1)
  have hsq : i * i = i ^ 2 := by ring
  have hlo : 0 ≤ i * i := by nlinarith
  have hup : i * i ≤ 99980001 := by nlinarith
  refine ⟨hread, ?_, ⟨?_, ?_, by norm_num⟩, ⟨?_, ?_⟩, ?_, ?_, ?_, ?_, ?_, ?_⟩
  · rw [hread, hsq]
  · rw [← hsq]; exact hlo
  · rw [← hsq]; exact hup
  · rw [hread, hmin]; omega
  · rw [hread, hmax]; omega
  · rw [hmul, hread]
  · simp only [IntMode.SrcLambda.call]
    rw [hmul, hsq]
  · simp only [IntMode.ThisLambda.call]
    rw [hmul, hsq]
  · simp only [IntMode.Test_Interface.f]
    rw [hmul, hsq]
  · simp only [IntMode.Test_Abstract_Class.f]
    rw [hmul, hsq]
  · intro v
    rw [exact_sum_canonical, wrap32_canonical_sum]
    exact int_test_canonical v _ _ (ite_self _)

/-- Witness of C14 at the largest index, `i = 9999`. -/
theorem canonical_terms_do_not_wrap_witness :
    (0 : Int) ≤ 9999 ∧ (9999 : Int) < 10000 ∧
    IntMode.mulAt IntMode.canonical 9999 = 99980001 := by
  refine ⟨by decide, by decide, ?_⟩
  have h := canonical_terms_do_not_wrap 9999 (by decide) (by decide)
  rw [h.2.2.2.2.1, h.1]
  norm_num

/-! ## Splitting the range -/

theorem sum_Ico_split (f : Int → Int) {lo mid hi : Int} (h1 : lo ≤ mid) (h2 : mid ≤ hi) :
    ∑ i ∈ Finset.Ico lo hi, f i
      = ∑ i ∈ Finset.Ico lo mid, f i + ∑ i ∈ Finset.Ico mid hi, f i := by
  rw [← Finset.Ico_union_Ico_eq_Ico h1 h2,
    Finset.sum_union (Finset.Ico_disjoint_Ico_consecutive lo mid hi)]

theorem foldSum_int32_split (f : Int → Int) {lo mid hi : Int} (h1 : lo ≤ mid) (h2 : mid ≤ hi) :
    foldSum IntMode.int32 lo hi f
      = IntMode.int32.add (foldSum IntMode.int32 lo mid f) (foldSum IntMode.int32 mid hi f) := by
  show foldSum IntMode.int32 lo hi f
      = wrap32 (foldSum IntMode.int32 lo mid f + foldSum IntMode.int32 mid hi f)
  rw [foldSum_int32, foldSum_int32, foldSum_int32, sum_indexRange f _ lo hi rfl,
    sum_indexRange f _ lo mid rfl, sum_indexRange f _ mid hi rfl, sum_Ico_split f h1 h2]
  unfold wrap32
  rw [wrapN_add_left, wrapN_add_right]

/-- C15: in integer mode, for every `f` and every `lo ≤ mid ≤ hi`, each
summation routine satisfies `sum(lo, hi, f) = sum(lo, mid, f) + sum(mid, hi, f)`,
where `+` is the addition of the `int` accumulator, i.e. the 32-bit wrapping
addition `wrap32 (a + b)`. -/
theorem int_sum_splits (lo mid hi : Int) (f : Int → Int) (h1 : lo ≤ mid) (h2 : mid ≤ hi) :
    sum_func IntMode.int32 lo hi f
      = IntMode.int32.add (sum_func IntMode.int32 lo mid f) (sum_func IntMode.int32 mid hi f) ∧
    Adder.sum IntMode.int32 ⟨f⟩ lo hi
      = IntMode.int32.add (Adder.sum IntMode.int32 ⟨f⟩ lo mid)
          (Adder.sum IntMode.int32 ⟨f⟩ mid hi) ∧
    sum_template IntMode.int32 (fun (g : Int → Int) i => g i) lo hi f
      = IntMode.int32.add (sum_template IntMode.int32 (fun (g : Int → Int) i => g i) lo mid f)
          (sum_template IntMode.int32 (fun (g : Int → Int) i => g i) mid hi f) ∧
    sum_std_function IntMode.int32 lo hi ⟨f⟩
      = IntMode.int32.add (sum_std_function IntMode.int32 lo mid ⟨f⟩)
          (sum_std_function IntMode.int32 mid hi ⟨f⟩) ∧
    sum_interface IntMode.int32 lo hi ⟨f⟩
      = IntMode.int32.add (sum_interface IntMode.int32 lo mid ⟨f⟩)
          (sum_interface IntMode.int32 mid hi ⟨f⟩) ∧
    sum_macro_res IntMode.int32 lo hi f
      = IntMode.int32.add (sum_macro_res IntMode.int32 lo mid f)
          (sum_macro_res IntMode.int32 mid hi f) ∧
    (∀ a b : Int, IntMode.int32.add a b = wrap32 (a + b)) := by
  refine ⟨?_, ?_, ?_, ?_, ?_, ?_, fun _ _ => rfl⟩
  · rw [sum_func_eq, sum_func_eq, sum_func_eq]
    exact foldSum_int32_split f h1 h2
  · rw [Adder.sum_eq, Adder.sum_eq, Adder.sum_eq]
    exact foldSum_int32_split f h1 h2
  · rw [sum_template_eq, sum_template_eq, sum_template_eq]
    exact foldSum_int32_split f h1 h2
  · rw [sum_std_function_eq, sum_std_function_eq, sum_std_function_eq]
    exact foldSum_int32_split f h1 h2
  · rw [sum_interface_eq, sum_interface_eq, sum_interface_eq]
    exact foldSum_int32_split f h1 h2
  · rw [sum_macro_res_eq, sum_macro_res_eq, sum_macro_res_eq]
    exact foldSum_int32_split f h1 h2

/-- Witness of C15: the range `[0, 2)` split at `1`, with terms `2^31 - 1`
whose sum wraps. -/
theorem int_sum_splits_witness :
    (0 : Int) ≤ 1 ∧ (1 : Int) ≤ 2 ∧
    sum_func IntMode.int32 0 2 (Function.const Int 2147483647)
      = IntMode.int32.add (sum_func IntMode.int32 0 1 (Function.const Int 2147483647))
          (sum_func IntMode.int32 1 2 (Function.const Int 2147483647)) :=
  ⟨by decide, by decide,
    (int_sum_splits 0 1 2 (Function.const Int 2147483647) (by decide) (by decide)).1⟩

end Jensen
